import Mathlib

/-!
A shallow embedding of the booking normalization and upsert engine of the
`lodgify-monday-sync` repository (`src/app.py`, `src/Heavenly.py`), together
with theorems settling the frozen claims about it.

Source payloads are JSON-like Python values.  We model them with the `Json`
inductive below.  Numbers are modelled as integers: no claim under study
depends on fractional values, and the monetary fields are only coerced and
passed through.  Python `dict`s are modelled as association lists with
first-occurrence lookup.  Python operations that can raise (`AttributeError`
on `.get`/`.strip` of a wrongly-typed value, `TypeError` on mixed `+`) are
modelled in the `Except String` monad.
-/

/-- A Python/JSON value as handled by the sync script. -/
inductive Json where
  | null : Json
  | bool (b : Bool) : Json
  | num (n : Int) : Json
  | str (s : String) : Json
  | arr (elems : List Json) : Json
  | obj (fields : List (String × Json)) : Json

namespace Json

/-- Python truthiness: `None`, `False`, `0`, `""`, `[]`, `{}` are falsy. -/
def truthy : Json → Bool
  | null => false
  | bool b => b
  | num n => n != 0
  | str s => s != ""
  | arr l => !l.isEmpty
  | obj l => !l.isEmpty

/-- `dict.get(k)` on an object's field list: first occurrence, default `None`. -/
def objGet (fields : List (String × Json)) (k : String) : Json :=
  match fields.find? (fun kv => kv.1 == k) with
  | some kv => kv.2
  | none => null

/-- Python `a or b` (value-returning short-circuit disjunction). -/
def orElse (a b : Json) : Json := if a.truthy then a else b

end Json

/-! ## Python string coercion -/

mutual

/-- Python `repr` of a value, as used for elements inside `str(list)`/`str(dict)`.
Quote-escaping corners of `repr` for exotic strings are irrelevant to every
claim (such a text is only ever written verbatim into a column or fed to a
date parser that rejects it). -/
def pyRepr : Json → String
  | .null => "None"
  | .bool b => if b then "True" else "False"
  | .num n => toString n
  | .str s =>
      let q := String.singleton (Char.ofNat 39)
      q ++ s ++ q
  | .arr l => "[" ++ pyReprList l ++ "]"
  | .obj l => "\x7b" ++ pyReprFields l ++ "\x7d"

/-- Comma-joined `repr`s of list elements. -/
def pyReprList : List Json → String
  | [] => ""
  | [x] => pyRepr x
  | x :: xs => pyRepr x ++ ", " ++ pyReprList xs

/-- Comma-joined `'key': repr(value)` renderings of dict entries. -/
def pyReprFields : List (String × Json) → String
  | [] => ""
  | (k, v) :: kvs =>
      let q := String.singleton (Char.ofNat 39)
      let entry := q ++ k ++ q ++ ": " ++ pyRepr v
      if kvs.isEmpty then entry else entry ++ ", " ++ pyReprFields kvs

end

/-- Python `str(v)`. -/
def pyStr : Json → String
  | .str s => s
  | v => pyRepr v

/-- Python `s.lower()` (ASCII case folding suffices for the inputs at hand). -/
def pyLower (s : String) : String := String.mk (s.toList.map Char.toLower)

/-- Python `s.strip()`: drop whitespace from both ends. -/
def pyStrip (s : String) : String :=
  String.mk (((s.toList.dropWhile Char.isWhitespace).reverse.dropWhile
    Char.isWhitespace).reverse)

/-- Python `s.split(sep)` for a one-character separator: keeps empty pieces,
like `str.split` with an explicit separator. -/
def splitOnCharAux (c : Char) : List Char → List Char → List String
  | [], tok => [String.mk tok.reverse]
  | x :: xs, tok =>
      if x = c then String.mk tok.reverse :: splitOnCharAux c xs []
      else splitOnCharAux c xs (x :: tok)

/-- Python `s.split(c)` for a single-character separator. -/
def splitOnChar (c : Char) (s : String) : List String :=
  splitOnCharAux c s.toList []

/-! ## Calendar dates (`datetime.date`) -/

/-- A Python `datetime.date`: a plain calendar date, no time-of-day. -/
structure PyDate where
  year : Int
  month : Nat
  day : Nat
deriving DecidableEq, Repr

/-- Gregorian leap-year test. -/
def isLeap (y : Int) : Bool := y % 4 == 0 && (y % 100 != 0 || y % 400 == 0)

/-- Length of month `m` in year `y`. -/
def daysInMonth (y : Int) (m : Nat) : Nat :=
  match m with
  | 1 => 31 | 2 => if isLeap y then 29 else 28 | 3 => 31 | 4 => 30
  | 5 => 31 | 6 => 30 | 7 => 31 | 8 => 31
  | 9 => 30 | 10 => 31 | 11 => 30 | 12 => 31
  | _ => 0

/-- Validity of a year/month/day triple within Python's `date` range. -/
def validYMD (y : Int) (m d : Nat) : Bool :=
  1 ≤ y && y ≤ 9999 && 1 ≤ m && m ≤ 12 && 1 ≤ d && d ≤ daysInMonth y m

namespace PyDate

/-- Day number of a civil date (days since 1970-01-01, Gregorian), the
standard "days from civil" computation; date subtraction `(db - da).days`
is the difference of these. -/
def rataDie (dt : PyDate) : Int :=
  let y : Int := if dt.month ≤ 2 then dt.year - 1 else dt.year
  let era : Int := (if 0 ≤ y then y else y - 399) / 400
  let yoe : Int := y - era * 400
  let mp : Int := (Int.ofNat dt.month + 9) % 12
  let doy : Int := (153 * mp + 2) / 5 + (Int.ofNat dt.day - 1)
  let doe : Int := yoe * 365 + yoe / 4 - yoe / 100 + doy
  era * 146097 + doe - 719468

/-- Zero-pad a numeral to width `w`. -/
def pad (w : Nat) (n : Nat) : String :=
  let s := toString n
  String.mk (List.replicate (w - s.length) '0') ++ s

/-- Python `date.isoformat()`: `YYYY-MM-DD`, zero-padded. -/
def isoformat (dt : PyDate) : String :=
  pad 4 dt.year.toNat ++ "-" ++ pad 2 dt.month ++ "-" ++ pad 2 dt.day

end PyDate

/-! ## Date parsing (`iso_date`, `parse_date`) -/

/-- Numeric value of a digit string. -/
def digitsVal (cs : List Char) : Nat :=
  cs.foldl (fun acc c => acc * 10 + (c.toNat - 48)) 0

/-- Nonempty all-ASCII-digit test. -/
def allDigits (cs : List Char) : Bool := !cs.isEmpty && cs.all Char.isDigit

/-- `datetime.strptime(s, "%Y-%m-%d").date()`: a four-digit year, one- or
two-digit month and day separated by `-`, consuming the whole string, and
denoting a valid calendar date. -/
def strptimeYMD (s : String) : Option PyDate :=
  match (splitOnChar '-' s).map String.toList with
  | [ys, ms, ds] =>
      if allDigits ys && ys.length == 4 &&
         allDigits ms && ms.length ≤ 2 &&
         allDigits ds && ds.length ≤ 2 then
        let y : Int := Int.ofNat (digitsVal ys)
        let m := digitsVal ms
        let d := digitsVal ds
        if validYMD y m d then some ⟨y, m, d⟩ else none
      else none
  | _ => none

/-- `parse_date` from `app.py`: `None`/empty → `None`, else strict
`%Y-%m-%d` parse (`strptimeYMD`), `None` on failure. -/
def parse_date (s : Option String) : Option PyDate :=
  match s with
  | none => none
  | some s => if s = "" then none else strptimeYMD s

/-- The string-to-date part of `iso_date`: `datetime.fromisoformat` on the
`Z`-normalized string, falling back to `strptime(s[:10], "%Y-%m-%d")`.
Every dash-separated input the fast path accepts has its calendar date in
the first 10 characters, which the fallback parses identically, so the
chain is modelled as the fallback on `s[:10]`.  (The 3.11+ fast path
additionally accepts compact forms like `20240601`; those are treated as
unparseable here — no claim involves them.) -/
def parseIsoChain (s : String) : Option PyDate :=
  strptimeYMD (s.take 10)

/-- `iso_date` from `app.py`: tolerant conversion of a raw value to an ISO
calendar-date string.  `None`/`""` → `None`; a dict is unwrapped via its
`time`/`date` sub-key (falsy → `None`); anything else is string-coerced and
parsed; the result is re-serialized with `date.isoformat()`. -/
def iso_date (v : Json) : Option String :=
  match v with
  | .null => none
  | .str "" => none
  | .obj fields =>
      let v1 := Json.orElse (Json.objGet fields "time") (Json.objGet fields "date")
      if !v1.truthy then none
      else (parseIsoChain (pyStr v1)).map PyDate.isoformat
  | _ => (parseIsoChain (pyStr v)).map PyDate.isoformat

/-- `days_between` from `app.py`: parse both ISO strings, `None` if either
fails, else the signed day difference `(db - da).days`. -/
def days_between (a b : Option String) : Option Int :=
  match parse_date a, parse_date b with
  | some da, some db => some (db.rataDie - da.rataDie)
  | _, _ => none

/-! ## Money and phone helpers -/

/-- Python `float(s)` on an integer-literal string (optional sign, digits,
surrounding whitespace).  JSON numbers are modelled as integers, so
fractional/exponent literals — accepted by `float` but absent from every
claim — are treated as unparseable. -/
def parseFloatInt (s : String) : Option Int :=
  match (pyStrip s).toList with
  | '+' :: rest => if allDigits rest then some (Int.ofNat (digitsVal rest)) else none
  | '-' :: rest => if allDigits rest then some (-(Int.ofNat (digitsVal rest))) else none
  | rest => if allDigits rest then some (Int.ofNat (digitsVal rest)) else none

/-- `safe_float` from `app.py`: `float(x)` with default `0.0` when the
coercion raises (`None`, lists, dicts, non-numeric strings). -/
def safe_float (x : Json) : Int :=
  match x with
  | .num n => n
  | .bool b => if b then 1 else 0
  | .str s => (parseFloatInt s).getD 0
  | _ => 0

/-- The `E164_RE` regex `^\+?[1-9]\d{6,14}$`. -/
def e164Match (s : String) : Bool :=
  let cs := match s.toList with
            | '+' :: rest => rest
            | cs => cs
  match cs with
  | c :: rest =>
      ('1' ≤ c && c ≤ '9') && rest.all Char.isDigit &&
      6 ≤ rest.length && rest.length ≤ 14
  | [] => false

/-- Left-to-right non-overlapping removal of the substring `(0)`
(`s.replace("(0)", "")`). -/
def dropParen0 : List Char → List Char
  | '(' :: '0' :: ')' :: rest => dropParen0 rest
  | c :: rest => c :: dropParen0 rest
  | [] => []

/-- `normalize_phone` from `app.py`: drop `(0)`, strip separator characters,
`00` → `+`, keep if E.164-shaped, else the last 12 digits. -/
def normalize_phone (raw : Json) : String :=
  if !raw.truthy then ""
  else
    let s := pyStr raw
    let s := String.mk (dropParen0 s.toList)
    let s := String.mk (s.toList.filter
      (fun c => !(c.isWhitespace || c == '-' || c == '(' || c == ')' || c == '.')))
    let s := match s.toList with
      | '0' :: '0' :: rest => "+" ++ String.mk rest
      | _ => s
    if e164Match s then s
    else
      let digits := s.toList.filter Char.isDigit
      if digits.isEmpty then "" else String.mk (digits.drop (digits.length - 12))

/-! ## Fallible Python operations

Operations that can raise (`AttributeError` on `.get`/`.strip`/`.lower` of a
wrongly-typed value, `TypeError` on mixed `+`, subscripting a non-list) are
modelled in `Except String`. -/

/-- The result of a Python expression that may raise. -/
abbrev Py (α : Type) := Except String α

/-- `v.get(k)`: dict lookup with default `None`; `AttributeError` when `v`
is not a dict. -/
def pyGet (v : Json) (k : String) : Py Json :=
  match v with
  | .obj fields => .ok (Json.objGet fields k)
  | _ => .error ("AttributeError: no attribute get (" ++ k ++ ")")

/-- `v.strip()` where `v` must already be a string (`AttributeError`
otherwise); used for the idiom `(x or "").strip()` after an `orElse`. -/
def pyStripOfStr (v : Json) : Py String :=
  match v with
  | .str s => .ok (pyStrip s)
  | _ => .error "AttributeError: no attribute strip"

/-- `seq[0]`.  For a truthy non-list the program raises either here
(`TypeError`/`KeyError`) or on the immediately following `.get` of the
element (`AttributeError` for the character of a string), so all non-list
cases are collapsed into the error case. -/
def pyIndex0 (v : Json) : Py Json :=
  match v with
  | .arr (x :: _) => .ok x
  | _ => .error "TypeError: not indexable"

/-- Python `+`: numeric addition (booleans coerce to 0/1), string and list
concatenation; `TypeError` on any other combination. -/
def pyAdd (a b : Json) : Py Json :=
  match a, b with
  | .num x, .num y => .ok (.num (x + y))
  | .num x, .bool y => .ok (.num (x + (if y then 1 else 0)))
  | .bool x, .num y => .ok (.num ((if x then 1 else 0) + y))
  | .bool x, .bool y => .ok (.num ((if x then 1 else 0) + (if y then 1 else 0)))
  | .str x, .str y => .ok (.str (x ++ y))
  | .arr x, .arr y => .ok (.arr (x ++ y))
  | _, _ => .error "TypeError: unsupported operand types for +"

/-- Python `in` on strings: substring containment. -/
def strContains (hay needle : String) : Bool :=
  hay.toList.tails.any (fun t => needle.toList.isPrefixOf t)

/-- `_norm` from `app.py`: `(s or "").strip().lower()`. -/
def normText (s : Json) : Py String := do
  let t ← pyStripOfStr (s.orElse (.str ""))
  return pyLower t

/-! ## Column map and label tables (`COLUMN_MAP`, labels, `put`) -/

/-- `COLUMN_MAP` from `app.py`: logical field name → Monday column id. -/
def COLUMN_MAP : List (String × String) :=
  [("reservation_id", "text_mkv47vb1"),
   ("unit",           "text_mkv49eqm"),
   ("property_id",    "text_mkv4n35j"),
   ("guest_name",     "text_mkv46pev"),
   ("email",          "email_mkv4mbte"),
   ("phone",          "phone_mkv4yk8k"),
   ("check_in",       "date_mkv4npgx"),
   ("check_out",      "date_mkv46w1t"),
   ("nights",         "numeric_mkv4j5aq"),
   ("source",         "dropdown_mkv47kzc"),
   ("status",         "color_mkv4zrs6"),
   ("stay_status",    "color_mkv4v5f0"),
   ("last_sync",      "date_mkv44erw"),
   ("raw_json",       "long_text_mkv4y19w"),
   ("booking_status", "text_mkv4kjxs"),
   ("currency",       "text_mkv497t1"),
   ("total",          "numeric_mkv4n3qy"),
   ("amount_paid",    "numeric_mkv43src"),
   ("amount_due",     "numeric_mkv4zk73"),
   ("source_text",    "long_text_mkv435cw"),
   ("language",       "text_mkv41dhj"),
   ("adults",         "numeric_mkv4nhza"),
   ("children",       "numeric_mkv4dq38"),
   ("infants",        "numeric_mkv4ez6r"),
   ("pets",           "numeric_mkv49d8e"),
   ("people",         "numeric_mkv4z385"),
   ("key_code",       "text_mkv4ae9w"),
   ("thread_uid",     "text_mkv49b55"),
   ("created_at",     "date_mkv4bkr9"),
   ("updated_at",     "date_mkv4n357"),
   ("canceled_at",    "date_mkv4hw1d")]

/-- `COLUMN_MAP.get(logical_key)`. -/
def columnMapGet (logical_key : String) : Option String :=
  (COLUMN_MAP.find? (fun kv => kv.1 == logical_key)).map (·.2)

/-- `ALLOWED_SOURCE_LABELS` with no environment override: the default set. -/
def ALLOWED_SOURCE_LABELS : List String :=
  ["Booking.com", "Airbnb", "Expedia", "Vrbo", "Direct"]

/-- Dict assignment `cv[k] = v`: replace an existing binding, else append. -/
def cvSet (cv : List (String × Json)) (k : String) (v : Json) : List (String × Json) :=
  if cv.any (fun kv => kv.1 == k) then
    cv.map (fun kv => if kv.1 == k then (k, v) else kv)
  else cv ++ [(k, v)]

/-- `put` from `app.py`: write `value` under the logical key's column id,
skipping unknown logical keys and `None` values. -/
def put (cv : List (String × Json)) (logical_key : String) (value : Json) :
    List (String × Json) :=
  match columnMapGet logical_key with
  | some col_id => match value with
    | .null => cv
    | v => cvSet cv col_id v
  | none => cv

/-! ## Classifiers -/

/-- `label_for_source` from `app.py`: lower-case and end-strip both texts,
join with a space, and match fixed substrings in order; no match → `None`
(the source never returns `"Manual"`). -/
def label_for_source (raw_source raw_source_text : Json) : Py (Option String) := do
  let a ← normText raw_source
  let b ← normText raw_source_text
  let blob := a ++ " " ++ b
  if strContains blob "booking.com" || strContains blob "booking com" ||
     strContains blob "bookingcom" then
    return some "Booking.com"
  else if strContains blob "airbnb" then return some "Airbnb"
  else if strContains blob "expedia" then return some "Expedia"
  else if strContains blob "vrbo" then return some "Vrbo"
  else if strContains blob "direct" then return some "Direct"
  else return none

/-- The `STATUS_LABELS` table with default `STATUS_DEFAULT = "Pending"`. -/
def statusLabelsGet (key : String) : String :=
  if key = "confirmed" then "Confirmed"
  else if key = "booked" then "Confirmed"
  else if key = "paid" then "Paid"
  else if key = "pending" then "Pending"
  else if key = "cancelled" then "Cancelled"
  else if key = "canceled" then "Cancelled"
  else "Pending"

/-- `label_for_status` from `app.py`: `(raw or "").lower().strip()` then the
`STATUS_LABELS` lookup with default `"Pending"`. -/
def label_for_status (raw : Json) : Py String :=
  match raw.orElse (.str "") with
  | .str s => .ok (statusLabelsGet (pyStrip (pyLower s)))
  | _ => .error "AttributeError: no attribute lower"

/-- `compute_stay_status_label` from `app.py`, with the process clock's UTC
calendar date (`today = parse_date(today_iso())`, always a valid date) taken
as a parameter.  Date comparison of valid calendar dates coincides with
comparison of their day numbers. -/
def compute_stay_status_label (today : PyDate) (check_in check_out : Option String) :
    Option String :=
  match parse_date check_in, parse_date check_out with
  | some ci, some co =>
      if today.rataDie < ci.rataDie then some "Upcoming"
      else if ci.rataDie ≤ today.rataDie && today.rataDie < co.rataDie then some "In house"
      else some "Completed"
  | _, _ => none

/-! ## Unit extractor (`PAREN_RE`, `extract_unit_name`) -/

/-- `PAREN_RE.findall`: non-overlapping matches of `\(([^)]+)\)` in order.
State machine over the characters: `buf = some b` while inside a potential
group (`b` holds its characters reversed); an inner `(` is ordinary group
content (the regex class `[^)]+` admits it), an immediate `)` aborts the
match without producing a group, exactly as the regex engine does. -/
def parenFindAll : List Char → Option (List Char) → List String
  | [], _ => []
  | '(' :: rest, none => parenFindAll rest (some [])
  | ')' :: rest, some b =>
      if b.isEmpty then parenFindAll rest none
      else String.mk b.reverse :: parenFindAll rest none
  | c :: rest, some b => parenFindAll rest (some (c :: b))
  | _ :: rest, none => parenFindAll rest none

/-- ASCII letter test (the regex `[A-Za-z]`). -/
def isAsciiLetter (c : Char) : Bool :=
  ('A' ≤ c && c ≤ 'Z') || ('a' ≤ c && c ≤ 'z')

/-- `re.fullmatch(r"\d{5,}", s)`: the whole string is five or more digits. -/
def fullmatchDigits5 (s : String) : Bool :=
  s.length ≥ 5 && s.toList.all Char.isDigit

/-- Tokenizer behind Python `s.split()`: whitespace-run separated tokens,
no empties (`tok` holds the current token reversed). -/
def pySplitWsAux : List Char → List Char → List String
  | [], tok => if tok.isEmpty then [] else [String.mk tok.reverse]
  | c :: cs, tok =>
      if c.isWhitespace then
        if tok.isEmpty then pySplitWsAux cs []
        else String.mk tok.reverse :: pySplitWsAux cs []
      else pySplitWsAux cs (c :: tok)

/-- Python `s.split()` / `re.split(r"\s+", ...)` on an end-trimmed string:
whitespace-run separated tokens, no empties. -/
def pySplitWs (s : String) : List String :=
  pySplitWsAux s.toList []

/-- Python `" ".join(l)`. -/
def joinSp : List String → String
  | [] => ""
  | [x] => x
  | x :: xs => x ++ " " ++ joinSp xs

/-- Step 2 of `extract_unit_name`: the explicit `unit_name` field,
stringified and trimmed, when truthy and non-blank. -/
def unit_step2 (un : Json) : Option String :=
  if un.truthy then
    let u := pyStrip (pyStr un)
    if u ≠ "" then some u else none
  else none

/-- Steps 3–4 of `extract_unit_name` on the trimmed free source text: the
last parenthesized group when it bears an ASCII letter and is not a pure
5+-digit run, else the last hyphen-delimited segment's last ≤3
letter-bearing tokens when 2–40 characters long. -/
def unit_step34 (st : String) : Option String :=
  if st ≠ "" then
    let fromParens :=
      match (parenFindAll st.toList none).getLast? with
      | some last =>
          let candidate := pyStrip last
          if candidate.toList.any isAsciiLetter && !fullmatchDigits5 candidate then
            some candidate
          else none
      | none => none
    match fromParens with
    | some c => some c
    | none =>
        let parts := ((splitOnChar '-' st).map pyStrip).filter (fun p => p ≠ "")
        if parts.length ≥ 2 then
          let tl := parts.getLastD ""
          let tokens := (pySplitWs tl).filter (fun t => t.toList.any isAsciiLetter)
          if !tokens.isEmpty then
            let guess := pyStrip (joinSp (tokens.drop (tokens.length - 3)))
            if 2 ≤ guess.length && guess.length ≤ 40 then some guess else none
          else none
        else none
  else none

/-- `extract_unit_name` from `app.py`: (1) `rental.name`; (2) `unit_name`;
(3) the last parenthesized group of `source_text`/`source` if it contains an
ASCII letter and is not a pure 5+-digit run; (4) the last hyphen-delimited
segment's last ≤3 letter-bearing tokens when 2–40 characters long;
(5) `rooms[0].key_code`; else `None`.  A non-dict argument raises on the
first `bk.get` (unreachable from `map_booking_to_monday`, which has already
raised by then). -/
def extract_unit_name (bk : Json) : Py (Option String) :=
  match bk with
  | .obj fields => do
    -- 1) rental.name
    let rental := (Json.objGet fields "rental").orElse (.obj [])
    let name ← pyStripOfStr ((← pyGet rental "name").orElse (.str ""))
    if name ≠ "" then return some name
    -- 2) unit_name
    match unit_step2 (Json.objGet fields "unit_name") with
    | some u => return some u
    | none =>
    -- 3) / 4) source_text / source free text
    let st ← pyStripOfStr
      (Json.orElse (Json.objGet fields "source_text")
        (Json.orElse (Json.objGet fields "source") (.str "")))
    match unit_step34 st with
    | some c => return some c
    | none =>
    -- 5) rooms[0].key_code
    let rooms := (Json.objGet fields "rooms").orElse (.arr [])
    if rooms.truthy then
      let r0 ← pyIndex0 rooms
      let kc ← pyStripOfStr ((← pyGet r0 "key_code").orElse (.str ""))
      if kc ≠ "" then return some kc else return none
    else
      return none
  | _ => .error "AttributeError: no attribute get (rental)"

/-! ## Mapping Lodgify → Monday (`map_booking_to_monday`) -/

mutual

/-- `json.dumps(v, separators=(",", ":"), ensure_ascii=False)`: the compact
serialization used for the raw-payload snapshot. -/
def jsonDumps : Json → String
  | .null => "null"
  | .bool b => if b then "true" else "false"
  | .num n => toString n
  | .str s => "\"" ++ jsonEscape s.toList ++ "\""
  | .arr l => "[" ++ jsonDumpsList l ++ "]"
  | .obj l => "\x7b" ++ jsonDumpsFields l ++ "\x7d"

/-- Escape backslash and quote (other escapes are irrelevant here). -/
def jsonEscape : List Char → String
  | [] => ""
  | c :: cs =>
      (if c = '\\' then "\\\\" else if c = '"' then "\\\"" else String.singleton c)
        ++ jsonEscape cs

/-- Comma-joined serializations of list elements. -/
def jsonDumpsList : List Json → String
  | [] => ""
  | [x] => jsonDumps x
  | x :: xs => jsonDumps x ++ "," ++ jsonDumpsList xs

/-- Comma-joined `"key":value` serializations of dict entries. -/
def jsonDumpsFields : List (String × Json) → String
  | [] => ""
  | (k, v) :: kvs =>
      let entry := "\"" ++ jsonEscape k.toList ++ "\":" ++ jsonDumps v
      if kvs.isEmpty then entry else entry ++ "," ++ jsonDumpsFields kvs

end

/-- An `Option String` as the Python value it came from. -/
def optStrJ : Option String → Json
  | some s => .str s
  | none => .null

/-- The result of `map_booking_to_monday`:
`{"item_name": ..., "external_id": ..., "column_values": ...}`. -/
structure Mapped where
  item_name : String
  external_id : String
  column_values : List (String × Json)

/-- The `property_id` read of `map_booking_to_monday` (line 397):
`bk.get("property_id") or (bk.get("rental") or {}).get("id")` — the right
side is evaluated (and can raise) only when the left is falsy. -/
def property_id_raw (fields : List (String × Json)) : Py Json :=
  let pidL := Json.objGet fields "property_id"
  if pidL.truthy then pure pidL
  else pyGet ((Json.objGet fields "rental").orElse (.obj [])) "id"

/-- The rooms/people-breakdown block of `map_booking_to_monday` (lines
436–444): `(adults, children, infants, pets, people, key_code)`, all `None`
when `rooms` is absent/empty; `people` falls back to the sum of the
breakdown counts. -/
def rooms_info (fields : List (String × Json)) :
    Py (Json × Json × Json × Json × Json × Json) :=
  let roomsJ := (Json.objGet fields "rooms").orElse (.arr [])
  if roomsJ.truthy then do
    let r0 ← pyIndex0 roomsJ
    let gb := (← pyGet r0 "guest_breakdown").orElse (.obj [])
    let adults ← pyGet gb "adults"
    let children ← pyGet gb "children"
    let infants ← pyGet gb "infants"
    let pets ← pyGet gb "pets"
    let peopleL ← pyGet r0 "people"
    let people ←
      if peopleL.truthy then pure peopleL
      else do
        let s1 ← pyAdd (adults.orElse (.num 0)) (children.orElse (.num 0))
        let s2 ← pyAdd s1 (infants.orElse (.num 0))
        pyAdd s2 (pets.orElse (.num 0))
    let key_code := (← pyGet r0 "key_code").orElse (.str "")
    pure (adults, children, infants, pets, people, key_code)
  else
    pure (Json.null, Json.null, Json.null, Json.null, Json.null, Json.null)

/-- The source-fallback text `st_blob` (line 474):
`(source_raw + (" " + source_text if source_text else "")).strip()`. -/
def source_blob (source_raw source_text : Json) : Py String := do
  let tailPart ← if source_text.truthy then pyAdd (.str " ") source_text
                 else pure (Json.str "")
  let blob ← pyAdd source_raw tailPart
  pyStripOfStr blob

/-- The `column_values` construction of `map_booking_to_monday` (the block
of `put` calls, lines 453–510): write each computed value under its column
id, skipping `None`s; the email pair only when an email exists; the source
dropdown only when the classified label is allowed, else the raw text into
the long-text fallback; the stay label only when computed; date wrappers
always. -/
def build_column_values (today : PyDate) (bk : Json) (res_id unit_name : String)
    (property_id : Json) (display_name : String) (email : Option String)
    (phone : String) (check_in check_out : Option String) (nights : Option Int)
    (source_label : Option String) (st_blob status_label : String)
    (currency : Json) (total_amount amount_paid amount_due : Int)
    (language adults children infants pets people key_code thread_uid : Json)
    (created_at updated_at canceled_at : Option String) (bs : String) :
    List (String × Json) :=
  let cv : List (String × Json) := []
  let cv := put cv "reservation_id" (.str res_id)
  let cv := put cv "unit" (.str unit_name)
  let cv := put cv "property_id"
    (if property_id.truthy then .str (pyStr property_id) else .null)
  let cv := put cv "guest_name" (.str display_name)
  let cv := match email with
    | some e => put cv "email"
        (.obj [("email", .str e),
               ("text", .str (if display_name ≠ "" then display_name else e))])
    | none => cv
  let cv := put cv "phone" (if phone ≠ "" then .str phone else .null)
  let cv := put cv "check_in" (.obj [("date", optStrJ check_in)])
  let cv := put cv "check_out" (.obj [("date", optStrJ check_out)])
  let cv := put cv "nights" (match nights with | some n => .num n | none => .null)
  let cv :=
    match source_label with
    | some lbl =>
        if ALLOWED_SOURCE_LABELS.contains lbl then
          put cv "source" (.obj [("labels", .arr [.str lbl])])
        else put cv "source_text" (if st_blob ≠ "" then .str st_blob else .null)
    | none => put cv "source_text" (if st_blob ≠ "" then .str st_blob else .null)
  let cv := put cv "status" (.obj [("label", .str status_label)])
  let cv := put cv "last_sync" (.obj [("date", .str today.isoformat)])
  let stay_label := compute_stay_status_label today check_in check_out
  let cv := match stay_label with
    | some lbl => put cv "stay_status" (.obj [("label", .str lbl)])
    | none => cv
  let cv := put cv "currency" currency
  let cv := put cv "total" (.num total_amount)
  let cv := put cv "amount_paid" (.num amount_paid)
  let cv := put cv "amount_due" (.num amount_due)
  let cv := put cv "language" language
  let cv := put cv "adults" adults
  let cv := put cv "children" children
  let cv := put cv "infants" infants
  let cv := put cv "pets" pets
  let cv := put cv "people" people
  let cv := put cv "key_code" key_code
  let cv := put cv "thread_uid" thread_uid
  let cv := put cv "created_at" (.obj [("date", optStrJ created_at)])
  let cv := put cv "updated_at" (.obj [("date", optStrJ updated_at)])
  let cv := put cv "canceled_at" (.obj [("date", optStrJ canceled_at)])
  let cv := put cv "booking_status" (.str bs)
  -- raw JSON snapshot (compact, capped at 50000 characters)
  let raw_compact := (jsonDumps bk).take 50000
  put cv "raw_json" (.str raw_compact)

/-- `map_booking_to_monday` from `app.py`, with the process clock's UTC
calendar date as the `today` parameter (it feeds `last_sync` and the stay
label).  Faithful to the source's evaluation order, including the points
where a wrongly-typed payload value raises: a non-dict document raises on
its very first `bk.get`, so the top-level dict is destructured once and the
many infallible `bk.get(...)` calls become plain lookups, while the inner
accesses that can raise stay in the `Py` monad. -/
def map_booking_to_monday (today : PyDate) (bk : Json) : Py Mapped :=
  match bk with
  | .obj fields => do
    -- identifiers & meta
    let res_id := pyStrip (pyStr (Json.orElse (Json.objGet fields "id")
                    (Json.orElse (Json.objGet fields "booking_id")
                      (Json.orElse (Json.objGet fields "code") (.str "")))))
    let property_id ← property_id_raw fields
    let property_id := match property_id with
      | .bool _ => Json.null
      | v => v
    let unitE ← extract_unit_name bk
    let unit_name := match unitE with
      | some s => if s = "" then "Unknown unit" else s
      | none => "Unknown unit"
    -- guest
    let guest := (Json.objGet fields "guest").orElse (.obj [])
    let full_name ← pyStripOfStr ((← pyGet guest "name").orElse (.str ""))
    let first_name0 ← pyStripOfStr ((← pyGet guest "first_name").orElse (.str ""))
    let last_name0 ← pyStripOfStr ((← pyGet guest "last_name").orElse (.str ""))
    let fl :=
      if !(first_name0 ≠ "" || last_name0 ≠ "") && full_name ≠ "" then
        let parts := pySplitWs full_name
        if parts.length == 1 then (parts.headD "", last_name0)
        else (joinSp parts.dropLast, parts.getLastD "")
      else (first_name0, last_name0)
    let first_name := fl.1
    let last_name := fl.2
    let display_name :=
      let dn := pyStrip (first_name ++ " " ++ last_name)
      let dn := if dn ≠ "" then dn else full_name
      if dn ≠ "" then dn else "Booking " ++ res_id
    let emailS ← pyStripOfStr ((← pyGet guest "email").orElse (.str ""))
    let email : Option String := if emailS ≠ "" then some emailS else none
    let phone := normalize_phone
      (Json.orElse (← pyGet guest "phone") (Json.orElse (← pyGet guest "mobile") (.str "")))
    -- dates
    let check_in := iso_date
      (Json.orElse (Json.objGet fields "arrival") (Json.objGet fields "check_in"))
    let check_out := iso_date
      (Json.orElse (Json.objGet fields "departure") (Json.objGet fields "check_out"))
    let nights := days_between check_in check_out
    -- money
    let total_amount := safe_float (Json.orElse (Json.objGet fields "total_amount")
      (Json.orElse (Json.objGet fields "total") (Json.objGet fields "price_total")))
    let amount_paid := safe_float (Json.objGet fields "amount_paid")
    let amount_due := safe_float (Json.objGet fields "amount_due")
    let currency := Json.orElse (Json.objGet fields "currency_code")
      (Json.orElse (Json.objGet fields "currency") (.str "GBP"))
    -- status / source
    let status_raw := (Json.objGet fields "status").orElse (.str "")
    let status_label ← label_for_status status_raw
    let source_text := (Json.objGet fields "source_text").orElse (.str "")
    let source_raw := (Json.objGet fields "source").orElse (.str "")
    let source_label ← label_for_source source_raw source_text
    -- rooms / people breakdown (best effort)
    let (adults, children, infants, pets, people, key_code) ← rooms_info fields
    -- misc
    let language := Json.objGet fields "language"
    let thread_uid := Json.objGet fields "thread_uid"
    let created_at := iso_date (Json.objGet fields "created_at")
    let updated_at := iso_date (Json.objGet fields "updated_at")
    let canceled_at := iso_date (Json.objGet fields "canceled_at")
    -- source fallback text.  In the source it is computed only on the
    -- fallback path; once `label_for_source` has succeeded both texts are
    -- strings, so the computation cannot raise and hoisting it before the
    -- choice (made inside `build_column_values`) is observationally
    -- identical.
    let st_blob ← source_blob source_raw source_text
    let bs ← pyStripOfStr (status_raw.orElse (.str ""))
    pure ⟨display_name, res_id,
      build_column_values today bk res_id unit_name property_id display_name
        email phone check_in check_out nights source_label st_blob status_label
        currency total_amount amount_paid amount_due language adults children
        infants pets people key_code thread_uid created_at updated_at
        canceled_at bs⟩
  | _ => .error "AttributeError: no attribute get (id)"

/-! ## Monday board model and the upsert engine (`_safe_upsert`)

The target store is an external collaborator (spec §6); it is modelled with
the standard semantics of its documented operations: a board holds items in
order, each with a numeric id, a state (`"active"`/`"archived"`), and column
values; looking an item up by column value returns the matching items in
board order (up to the query's limit) whatever their state; creating adds an
active item with a fresh id; updating merges column values into an item;
restoring marks an item active.  Transport failures (the `except` branch of
`_safe_upsert`) do not arise in the pure store. -/

/-- A Monday item: id, state, display name, and column values. -/
structure MItem where
  id : Nat
  state : String
  name : String
  cols : List (String × Json)

/-- A Monday board: the items plus a fresh-id counter. -/
structure Board where
  nextId : Nat
  items : List MItem

/-- `COLUMN_MAP["reservation_id"]`, the lookup column for the natural key. -/
def lookupColId : String := "text_mkv47vb1"

/-- The `text` rendering of a stored column value (the lookup compares it to
the external id; the sync writes this column as a plain string). -/
def colText (cols : List (String × Json)) (column_id : String) : String :=
  match Json.objGet cols column_id with
  | .str s => s
  | _ => ""

/-- The items whose lookup-column text equals `value`. -/
def matchingItems (B : Board) (column_id value : String) : List MItem :=
  B.items.filter (fun it => colText it.cols column_id == value)

/-- `MondayClient.find_item_by_external_id`: query limited to 2 matches,
prefer an active item, report the first one's id and state (state defaulting
to `"active"` when blank). -/
def find_item_by_external_id (B : Board) (column_id value : String) :
    Option (Nat × String) :=
  let items := (matchingItems B column_id value).take 2
  match items.filter (fun it => pyLower it.state == "active") with
  | it :: _ => some (it.id, if it.state = "" then "active" else it.state)
  | [] =>
    match items with
    | it :: _ => some (it.id, if it.state = "" then "active" else it.state)
    | [] => none

/-- `restore_item`: mark the item active. -/
def restore_item (B : Board) (item_id : Nat) : Board :=
  ⟨B.nextId, B.items.map (fun it =>
    if it.id == item_id then ⟨it.id, "active", it.name, it.cols⟩ else it)⟩

/-- `create_item`: append a fresh active item, returning its id. -/
def create_item (B : Board) (item_name : String) (cv : List (String × Json)) :
    Nat × Board :=
  (B.nextId, ⟨B.nextId + 1, B.items ++ [⟨B.nextId, "active", item_name, cv⟩]⟩)

/-- Merge the pushed column values into stored ones, key by key
(`change_multiple_column_values`). -/
def cvMerge (cols cv : List (String × Json)) : List (String × Json) :=
  cv.foldl (fun acc kv => cvSet acc kv.1 kv.2) cols

/-- `update_item`: merge column values into the item with the given id. -/
def update_item (B : Board) (item_id : Nat) (cv : List (String × Json)) : Board :=
  ⟨B.nextId, B.items.map (fun it =>
    if it.id == item_id then ⟨it.id, it.state, it.name, cvMerge it.cols cv⟩ else it)⟩

/-- `UpsertResult` from `app.py`. -/
structure UpsertResult where
  ok : Bool
  item_id : Option Nat := none
  created : Bool := false
  updated : Bool := false
  error : Option String := none
deriving DecidableEq, Repr

/-- `_safe_upsert` from `app.py`: look the natural key up in the lookup
column; found → (restore if archived, then) update in place; not found →
create under a disambiguated display name. -/
def safe_upsert (B : Board) (mapped : Mapped) : UpsertResult × Board :=
  let lookup_col := lookupColId
  match find_item_by_external_id B lookup_col mapped.external_id with
  | some (item_id, state) =>
      let B := if pyLower state == "archived" then restore_item B item_id else B
      let B := update_item B item_id mapped.column_values
      (⟨true, some item_id, false, true, none⟩, B)
  | none =>
      let safe_name := mapped.item_name ++ " • #" ++ mapped.external_id
      let (new_id, B) := create_item B safe_name mapped.column_values
      (⟨true, some new_id, true, false, none⟩, B)

/-- Repeated `_safe_upsert` calls for one booking: same name and external id,
successive column-value payloads. -/
def upsert_seq (B : Board) (name ext : String) :
    List (List (String × Json)) → List UpsertResult × Board
  | [] => ([], B)
  | cv :: rest =>
      let (r, B') := safe_upsert B ⟨name, ext, cv⟩
      let (rs, Bf) := upsert_seq B' name ext rest
      (r :: rs, Bf)

/-- Board well-formedness: item ids are distinct and below the fresh-id
counter. -/
def boardWF (B : Board) : Prop :=
  (B.items.map (fun it => it.id)).Nodup ∧ ∀ it ∈ B.items, it.id < B.nextId

/-- The last binding of a key in a pushed column-value list (the value a
merge leaves in place). -/
def cvLast (cv : List (String × Json)) (k : String) : Option Json :=
  (cv.reverse.find? (fun kv => kv.1 == k)).map (fun kv => kv.2)

/-- The board has converged for this external id: exactly one matching item,
and it is active with the given id. -/
def convergedTo (B : Board) (ext : String) (i : Nat) : Prop :=
  ∃ it, matchingItems B lookupColId ext = [it] ∧ it.id = i ∧ it.state = "active"

/-! ## Batch coordinator (`lodgify_sync_all`) -/

/-- One entry of the `results` list: a successful upsert outcome, or the
per-item error record `{"ok": False, "error": ..., "source_id": ...}`. -/
inductive BatchOutcome where
  | succ (r : UpsertResult) : BatchOutcome
  | fail (error : String) (source_id : Json) : BatchOutcome

/-- Whether an outcome is a success entry. -/
def BatchOutcome.isSucc : BatchOutcome → Bool
  | .succ _ => true
  | .fail _ _ => false

/-- The loop body of `/lodgify-sync-all`: each booking is paired with the
wall-clock duration its processing consumes (whole seconds; the claims do
not turn on fractional timing).  `step` is the per-item work
(`map_booking_to_monday` + `_safe_upsert` in the source, any fallible step
in general).  A failing item is recorded as a `fail` entry whose source id
is `bk.get("id")` — an expression evaluated inside the `except` block, so
its own exception propagates and aborts the loop.  After every item the
elapsed time is checked against `max_sec` and the loop breaks when
exceeded.  `processed` counts successful items only. -/
def lodgify_sync_loop (step : Board → Json → Py (UpsertResult × Board))
    (max_sec : Nat) :
    Board → Nat → Nat → List (Json × Nat) → Py (List BatchOutcome × Nat × Board)
  | B, _, processed, [] => .ok ([], processed, B)
  | B, elapsed, processed, (bk, d) :: rest =>
    let elapsed := elapsed + d
    match step B bk with
    | .ok (r, B') =>
        if elapsed > max_sec then .ok ([.succ r], processed + 1, B')
        else
          match lodgify_sync_loop step max_sec B' elapsed (processed + 1) rest with
          | .ok (outs, p, Bf) => .ok (.succ r :: outs, p, Bf)
          | .error e2 => .error e2
    | .error e =>
        match pyGet bk "id" with
        | .ok sid =>
            if elapsed > max_sec then .ok ([.fail e sid], processed, B)
            else
              match lodgify_sync_loop step max_sec B elapsed processed rest with
              | .ok (outs, p, Bf) => .ok (.fail e sid :: outs, p, Bf)
              | .error e2 => .error e2
        | .error e2 => .error e2

/-- `/lodgify-sync-all`: run the loop from a zero clock and return
`(results, processed, next_skip, board)` with `next_skip = skip + processed`. -/
def lodgify_sync_all (step : Board → Json → Py (UpsertResult × Board))
    (max_sec skip : Nat) (bookings : List (Json × Nat)) (B : Board) :
    Py (List BatchOutcome × Nat × Nat × Board) :=
  match lodgify_sync_loop step max_sec B 0 0 bookings with
  | .ok (outs, p, Bf) => .ok (outs, p, skip + p, Bf)
  | .error e => .error e

/-- The per-item work of the source's batch loop:
`map_booking_to_monday` then `_safe_upsert`. -/
def sync_step (today : PyDate) (B : Board) (bk : Json) : Py (UpsertResult × Board) := do
  let mapped ← map_booking_to_monday today bk
  pure (safe_upsert B mapped)

/-- Every booking of the batch is a dict (so the `except`-block's
`bk.get("id")` cannot itself raise). -/
def allDictItems (items : List (Json × Nat)) : Bool :=
  items.all (fun it => match it.1 with | .obj _ => true | _ => false)

/-! ## The two guest-name splitters (`app.py` vs `Heavenly.py`) -/

/-- The combined-name split of `map_booking_to_monday` (app.py lines
407–412), for the case where no separate first/last fields are present:
one token → first name; several → the last token is the last name and the
rest joined are the first name. -/
def app_name_split (full_name : String) : String × String :=
  match pySplitWs full_name with
  | [] => ("", "")
  | [p] => (p, "")
  | parts => (joinSp parts.dropLast, parts.getLastD "")

/-- The combined-name split of `extract_guest_info` (Heavenly.py lines
132–138), for the same case: the first token is the first name and the rest
joined are the last name.  The source splits `str(full).strip()`; stripping
before a whitespace split does not change the token list, so the model
splits the string directly. -/
def heavenly_name_split (full : String) : String × String :=
  match pySplitWs full with
  | [] => ("", "")
  | p :: rest =>
      (p, if rest.length > 0 then joinSp rest else "")

/-! ## Well-shapedness: a sufficient condition for `map_booking_to_monday`
not to raise -/

/-- A value that is a string or falsy (safe for `(x or "").strip()` and
`(x or "").lower()`). -/
def strOrFalsy : Json → Bool
  | .str _ => true
  | v => !v.truthy

/-- A value that is a dict or falsy (safe for `(x or {}).get(...)`). -/
def objOrFalsy : Json → Bool
  | .obj _ => true
  | v => !v.truthy

/-- A value that is a number, boolean or falsy (safe as an `(x or 0)`
summand). -/
def numOrBoolOrFalsy : Json → Bool
  | .num _ => true
  | .bool _ => true
  | v => !v.truthy

/-- A value that is a list or falsy (safe for `(x or [])[0]`). -/
def listOrFalsy : Json → Bool
  | .arr _ => true
  | v => !v.truthy

/-- The dict entries behind `(gb or {})` for a dict-or-falsy value. -/
def gbFields : Json → List (String × Json)
  | .obj g => g
  | _ => []

/-- Well-shapedness of the `rooms` field: absent/falsy, or a list whose
first element is a dict with a dict-or-falsy `guest_breakdown`, a
string-or-falsy `key_code`, and either an explicit truthy `people` or
summable breakdown counts. -/
def roomsWellShaped (fields : List (String × Json)) : Bool :=
  match Json.objGet fields "rooms" with
  | .arr [] => true
  | .arr (r0 :: _) =>
      match r0 with
      | .obj rf =>
          let gb := Json.objGet rf "guest_breakdown"
          let gf := gbFields gb
          objOrFalsy gb &&
          strOrFalsy (Json.objGet rf "key_code") &&
          ((Json.objGet rf "people").truthy ||
            (numOrBoolOrFalsy (Json.objGet gf "adults") &&
             numOrBoolOrFalsy (Json.objGet gf "children") &&
             numOrBoolOrFalsy (Json.objGet gf "infants") &&
             numOrBoolOrFalsy (Json.objGet gf "pets")))
      | _ => false
  | v => !v.truthy

/-- Well-shapedness of the `rental` field: a dict whose `name` is
string-or-falsy, or absent/falsy. -/
def rentalWellShaped (fields : List (String × Json)) : Bool :=
  match Json.objGet fields "rental" with
  | .obj rf => strOrFalsy (Json.objGet rf "name")
  | v => !v.truthy

/-- Well-shapedness of the `guest` field: a dict whose name/email entries are
strings or absent/falsy, or itself absent/falsy. -/
def guestWellShaped (fields : List (String × Json)) : Bool :=
  match Json.objGet fields "guest" with
  | .obj gf =>
      strOrFalsy (Json.objGet gf "name") &&
      strOrFalsy (Json.objGet gf "first_name") &&
      strOrFalsy (Json.objGet gf "last_name") &&
      strOrFalsy (Json.objGet gf "email")
  | v => !v.truthy

/-- A sufficient well-shapedness condition on a booking document under which
extraction raises nowhere: the document is a dict, `rental`/`guest` are
dicts or absent/falsy, the guest's name/email fields and the top-level
`status`/`source`/`source_text` are strings or absent/falsy, and `rooms` is
well-shaped.  Leaf values elsewhere (dates, money, ids) may be arbitrarily
malformed — they degrade individually. -/
def wellShaped (bk : Json) : Bool :=
  match bk with
  | .obj fields =>
      rentalWellShaped fields &&
      guestWellShaped fields &&
      strOrFalsy (Json.objGet fields "status") &&
      strOrFalsy (Json.objGet fields "source") &&
      strOrFalsy (Json.objGet fields "source_text") &&
      roomsWellShaped fields
  | _ => false

/-! ## Column-value sanity (`put` writes only known columns, never `None`) -/

/-- A Monday column id registered in `COLUMN_MAP`. -/
def knownColId (cid : String) : Bool :=
  COLUMN_MAP.any (fun kv => kv.2 == cid)

/-- Every entry addresses a known column and carries a non-`None` value. -/
def cvOK (cv : List (String × Json)) : Bool :=
  cv.all (fun kv => knownColId kv.1 && !(match kv.2 with | .null => true | _ => false))

/-- The value produced by the idiom `(x or "").strip()` when it does not
raise: the trimmed string, or `""` for a falsy non-string. -/
def stripOrVal : Json → String
  | .str s => pyStrip s
  | _ => ""

/-- A value that is a number or a boolean (a valid Python `+` operand with
numeric result). -/
def isNumBool : Json → Bool
  | .num _ => true
  | .bool _ => true
  | _ => false

/-! # Theorems

General lemmas first, then one theorem per claim (with its witness or
counterexample). -/

/-- Monadic bind in `Py` succeeds exactly through a successful first step. -/
theorem py_bind_ok_iff {α β : Type} (x : Py α) (f : α → Py β) (b : β) :
    (x >>= f) = Except.ok b ↔ ∃ a, x = Except.ok a ∧ f a = Except.ok b := by
  cases x <;> simp [Bind.bind, Except.bind]

/-- `(v or "").strip()` succeeds on string-or-falsy values, yielding
`stripOrVal v`. -/
theorem stripOr_ok {v : Json} (h : strOrFalsy v = true) :
    pyStripOfStr (v.orElse (.str "")) = .ok (stripOrVal v) := by
  cases v with
  | str s =>
      by_cases hs : s = ""
      · subst hs; rfl
      · simp [Json.orElse, Json.truthy, hs, pyStripOfStr, stripOrVal]
  | null => rfl
  | bool b => cases b with
      | false => rfl
      | true => simp [strOrFalsy, Json.truthy] at h
  | num n =>
      have hn : n = 0 := by simpa [strOrFalsy, Json.truthy] using h
      subst hn; rfl
  | arr l => cases l with
      | nil => rfl
      | cons x xs => simp [strOrFalsy, Json.truthy] at h
  | obj l => cases l with
      | nil => rfl
      | cons x xs => simp [strOrFalsy, Json.truthy] at h

/-- `(v or {})` is a dict for dict-or-falsy values. -/
theorem orElse_obj {v : Json} (h : objOrFalsy v = true) :
    ∃ fs, v.orElse (.obj []) = .obj fs := by
  cases v with
  | obj l =>
      cases l with
      | nil => exact ⟨[], rfl⟩
      | cons x xs => exact ⟨x :: xs, by simp [Json.orElse, Json.truthy]⟩
  | null => exact ⟨[], rfl⟩
  | bool b => cases b with
      | false => exact ⟨[], rfl⟩
      | true => simp [objOrFalsy, Json.truthy] at h
  | num n =>
      have hn : n = 0 := by simpa [objOrFalsy, Json.truthy] using h
      subst hn; exact ⟨[], rfl⟩
  | str s =>
      have hs : s = "" := by simpa [objOrFalsy, Json.truthy] using h
      subst hs; exact ⟨[], rfl⟩
  | arr l => cases l with
      | nil => exact ⟨[], rfl⟩
      | cons x xs => simp [objOrFalsy, Json.truthy] at h

/-- `(v or [])` is a list for list-or-falsy values. -/
theorem orElse_arr {v : Json} (h : listOrFalsy v = true) :
    ∃ l, v.orElse (.arr []) = .arr l := by
  cases v with
  | arr l =>
      cases l with
      | nil => exact ⟨[], rfl⟩
      | cons x xs => exact ⟨x :: xs, by simp [Json.orElse, Json.truthy]⟩
  | null => exact ⟨[], rfl⟩
  | bool b => cases b with
      | false => exact ⟨[], rfl⟩
      | true => simp [listOrFalsy, Json.truthy] at h
  | num n =>
      have hn : n = 0 := by simpa [listOrFalsy, Json.truthy] using h
      subst hn; exact ⟨[], rfl⟩
  | str s =>
      have hs : s = "" := by simpa [listOrFalsy, Json.truthy] using h
      subst hs; exact ⟨[], rfl⟩
  | obj l => cases l with
      | nil => exact ⟨[], rfl⟩
      | cons x xs => simp [listOrFalsy, Json.truthy] at h

/-- `(v or "")` is a string for string-or-falsy values. -/
theorem orElse_str {v : Json} (h : strOrFalsy v = true) :
    ∃ s, v.orElse (.str "") = .str s := by
  cases v with
  | str s =>
      by_cases hs : s = ""
      · subst hs; exact ⟨"", rfl⟩
      · exact ⟨s, by simp [Json.orElse, Json.truthy, hs]⟩
  | null => exact ⟨"", rfl⟩
  | bool b => cases b with
      | false => exact ⟨"", rfl⟩
      | true => simp [strOrFalsy, Json.truthy] at h
  | num n =>
      have hn : n = 0 := by simpa [strOrFalsy, Json.truthy] using h
      subst hn; exact ⟨"", rfl⟩
  | arr l => cases l with
      | nil => exact ⟨"", rfl⟩
      | cons x xs => simp [strOrFalsy, Json.truthy] at h
  | obj l => cases l with
      | nil => exact ⟨"", rfl⟩
      | cons x xs => simp [strOrFalsy, Json.truthy] at h

/-- `(v or 0)` is a number or boolean for number/boolean-or-falsy values. -/
theorem orElse_num_isNumBool {v : Json} (h : numOrBoolOrFalsy v = true) :
    isNumBool (v.orElse (.num 0)) = true := by
  cases v with
  | num n => by_cases hn : n = 0 <;> simp [Json.orElse, Json.truthy, hn, isNumBool]
  | bool b => cases b <;> simp [Json.orElse, Json.truthy, isNumBool]
  | null => rfl
  | str s =>
      have hs : s = "" := by simpa [numOrBoolOrFalsy, Json.truthy] using h
      subst hs; rfl
  | arr l => cases l with
      | nil => rfl
      | cons x xs => simp [numOrBoolOrFalsy, Json.truthy] at h
  | obj l => cases l with
      | nil => rfl
      | cons x xs => simp [numOrBoolOrFalsy, Json.truthy] at h

/-- Adding number/boolean operands succeeds and yields a number. -/
theorem pyAdd_numBool {a b : Json} (ha : isNumBool a = true) (hb : isNumBool b = true) :
    ∃ n, pyAdd a b = .ok (.num n) := by
  cases a <;> cases b <;> simp_all [isNumBool, pyAdd]

/-! ## C10 — the two guest-name splitters -/

/-- C10 (counterexample): on a three-token name the two splitters disagree —
`app.py` yields `("Anna Maria", "Smith")`, `Heavenly.py` yields
`("Anna", "Maria Smith")`. -/
theorem name_splitters_differ_three_tokens :
    app_name_split "Anna Maria Smith" ≠ heavenly_name_split "Anna Maria Smith" := by
  decide

/-- C10 (amended): the two splitters agree exactly on names of at most two
whitespace-separated tokens; `app.py` keeps all but the last token as the
first name, `Heavenly.py` keeps all but the first token as the last name. -/
theorem name_splitters_agree_two_tokens (s : String)
    (h : (pySplitWs s).length ≤ 2) :
    app_name_split s = heavenly_name_split s := by
  rcases hl : pySplitWs s with _ | ⟨a, _ | ⟨b, _ | ⟨c, rest⟩⟩⟩
  · simp [app_name_split, heavenly_name_split, hl]
  · simp [app_name_split, heavenly_name_split, hl]
  · simp [app_name_split, heavenly_name_split, hl, joinSp]
  · rw [hl] at h; simp at h

/-- C10 witness: a concrete two-token name on which the agreement theorem
applies. -/
theorem name_splitters_agree_two_tokens_witness :
    app_name_split "Jane Doe" = heavenly_name_split "Jane Doe" :=
  name_splitters_agree_two_tokens "Jane Doe" (by decide)

/-! ## C5 — source classification -/

/-- C5 (counterexample): the keyword table has no `homeaway` or `manual`
entry — both classify to `None`, not to `Vrbo`/`Manual` as claimed. -/
theorem homeaway_manual_not_classified :
    label_for_source (.str "homeaway") (.str "") = .ok none ∧
    label_for_source (.str "manual") (.str "") = .ok none := ⟨rfl, rfl⟩

/-- C5 (amended): classification lower-cases and end-strips the declared
source and the free source text (it does not strip interior punctuation),
joins them, and matches the fixed substrings `booking.com`/`booking com`/
`bookingcom` → `Booking.com`, `airbnb`, `expedia`, `vrbo`, `direct` in that
order with first match winning; no `homeaway`/`manual` entries exist; no
match yields `None`, in which case the mapper writes the original free text
to the long-text fallback column instead of the dropdown.  In particular
`"Booking.com"`, `"BOOKINGCOM"` and `"booking com"` all classify to
`Booking.com`. -/
theorem source_classification_table :
    label_for_source (.str "Booking.com") (.str "") = .ok (some "Booking.com") ∧
    label_for_source (.str "BOOKINGCOM") (.str "") = .ok (some "Booking.com") ∧
    label_for_source (.str "booking com") (.str "") = .ok (some "Booking.com") ∧
    label_for_source (.str "AirBnB guest") (.str "") = .ok (some "Airbnb") ∧
    label_for_source (.str "Expedia") (.str "") = .ok (some "Expedia") ∧
    label_for_source (.str "VRBO") (.str "") = .ok (some "Vrbo") ∧
    label_for_source (.str "Direct enquiry") (.str "") = .ok (some "Direct") ∧
    label_for_source (.str "") (.str "via airbnb.com") = .ok (some "Airbnb") ∧
    label_for_source (.str "bookingcom and airbnb") (.str "") = .ok (some "Booking.com") ∧
    label_for_source (.str "Phone enquiry") (.str "") = .ok none ∧
    (map_booking_to_monday ⟨2024, 6, 10⟩
        (.obj [("id", .str "1"), ("source", .str "Phone enquiry")])).map
      (fun m => (Json.objGet m.column_values "dropdown_mkv47kzc",
                 Json.objGet m.column_values "long_text_mkv435cw"))
      = .ok (.null, .str "Phone enquiry") :=
  ⟨rfl, rfl, rfl, rfl, rfl, rfl, rfl, rfl, rfl, rfl, rfl⟩

/-! ## C7 — empty external id -/

/-- C7 (counterexample): an upsert whose mapped `external_id` is the empty
string still writes — on an empty board it creates a record. -/
theorem empty_external_id_creates :
    (safe_upsert ⟨0, []⟩ ⟨"Booking ", "", []⟩).1.created = true ∧
    (safe_upsert ⟨0, []⟩ ⟨"Booking ", "", []⟩).2.items.length = 1 := ⟨rfl, rfl⟩

/-- C7 (amended): `_safe_upsert` performs no emptiness check on the natural
key — for every board and mapped booking, the empty external id included, it
proceeds to a write (an update when the lookup finds a record, a create
otherwise) and reports success. -/
theorem upsert_always_writes (B : Board) (m : Mapped) :
    (safe_upsert B m).1.ok = true ∧
    ((safe_upsert B m).1.created = true ∨ (safe_upsert B m).1.updated = true) := by
  unfold safe_upsert
  rcases h : find_item_by_external_id B lookupColId m.external_id with _ | ⟨i, st⟩ <;>
    simp [h, create_item]

/-! ## C3 — nights -/

/-- C3 (counterexample): with `check_out` before `check_in` the mapper still
emits a nights value, and it is negative (`-3`), contradicting "present only
if `check_out >= check_in` … never negative". -/
theorem nights_negative_on_reversed_dates :
    (map_booking_to_monday ⟨2024, 6, 10⟩ (.obj [("id", .str "9"),
        ("arrival", .str "2024-06-04"), ("departure", .str "2024-06-01")])).map
      (fun m => Json.objGet m.column_values "numeric_mkv4j5aq") = .ok (.num (-3)) :=
  rfl

/-- C3 (amended): `nights` is present exactly when both date strings parse
as calendar dates, and then equals the signed day difference
`check_out - check_in` — which is negative whenever `check_out < check_in`
(no clamping and no absence in that case). -/
theorem nights_signed_difference (a b : Option String) :
    ((days_between a b).isSome ↔ (parse_date a).isSome ∧ (parse_date b).isSome) ∧
    (∀ da db, parse_date a = some da → parse_date b = some db →
      days_between a b = some (db.rataDie - da.rataDie)) := by
  constructor
  · unfold days_between
    cases parse_date a <;> cases parse_date b <;> simp
  · intro da db ha hb
    simp [days_between, ha, hb]

/-- C3 witness: the amended nights law evaluated at the concrete pair
`2024-06-01` / `2024-06-04`. -/
theorem nights_signed_difference_witness :
    days_between (some "2024-06-01") (some "2024-06-04")
      = some ((⟨2024, 6, 4⟩ : PyDate).rataDie - (⟨2024, 6, 1⟩ : PyDate).rataDie) :=
  (nights_signed_difference (some "2024-06-01") (some "2024-06-04")).2
    ⟨2024, 6, 1⟩ ⟨2024, 6, 4⟩ rfl rfl

/-! ## C4 — stay lifecycle -/

/-- C4 (counterexample): a cancelled, future-dated booking maps to stay
label `Upcoming` (with status label `Cancelled`) — cancellation is not
forced to `Completed`; and with only one date present the classifier yields
no label rather than comparing against the single date. -/
theorem cancelled_future_booking_upcoming :
    (map_booking_to_monday ⟨2024, 6, 1⟩ (.obj [("id", .str "9"),
        ("status", .str "cancelled"), ("arrival", .str "2030-01-01"),
        ("departure", .str "2030-01-05")])).map
      (fun m => (Json.objGet m.column_values "color_mkv4v5f0",
                 Json.objGet m.column_values "color_mkv4zrs6"))
      = .ok (.obj [("label", .str "Upcoming")], .obj [("label", .str "Cancelled")]) ∧
    compute_stay_status_label ⟨2024, 6, 1⟩ (some "2030-01-01") none = none :=
  ⟨rfl, rfl⟩

/-- C4 (amended): with both dates parseable the classifier is the three-way
comparison — `today < check_in` → `Upcoming`, `today < check_out` (and not
before check-in) → `In house`, else `Completed`; with either date missing or
unparseable the label is absent (no single-date fallback, no default, and
the booking status plays no part). -/
theorem stay_lifecycle_characterization (today : PyDate) (a b : Option String) :
    (∀ da db, parse_date a = some da → parse_date b = some db →
      compute_stay_status_label today a b =
        some (if today.rataDie < da.rataDie then "Upcoming"
              else if today.rataDie < db.rataDie then "In house"
              else "Completed")) ∧
    ((parse_date a = none ∨ parse_date b = none) →
      compute_stay_status_label today a b = none) := by
  constructor
  · intro da db ha hb
    unfold compute_stay_status_label
    rw [ha, hb]
    by_cases h1 : today.rataDie < da.rataDie
    · simp [h1]
    · have h1' : da.rataDie ≤ today.rataDie := by omega
      by_cases h2 : today.rataDie < db.rataDie
      · simp [h1, h1', h2]
      · simp [h1, h1', h2]
  · intro h
    unfold compute_stay_status_label
    rcases h with h | h <;> rw [h] <;> cases parse_date a <;> cases parse_date b <;> rfl

/-- C4 witness: the lifecycle law evaluated mid-stay — today `2024-06-02`
within `2024-06-01 … 2024-06-04`. -/
theorem stay_lifecycle_characterization_witness :
    compute_stay_status_label ⟨2024, 6, 2⟩ (some "2024-06-01") (some "2024-06-04")
      = some (if (⟨2024, 6, 2⟩ : PyDate).rataDie < (⟨2024, 6, 1⟩ : PyDate).rataDie
              then "Upcoming"
              else if (⟨2024, 6, 2⟩ : PyDate).rataDie < (⟨2024, 6, 4⟩ : PyDate).rataDie
              then "In house" else "Completed") :=
  (stay_lifecycle_characterization ⟨2024, 6, 2⟩ (some "2024-06-01")
    (some "2024-06-04")).1 ⟨2024, 6, 1⟩ ⟨2024, 6, 4⟩ rfl rfl

/-! ## C9 — unit-name heuristic -/

/-- A character other than `(` advances the scan without opening a group. -/
theorem parenFindAll_cons_none (c : Char) (rest : List Char) (hc : c ≠ '(') :
    parenFindAll (c :: rest) none = parenFindAll rest none := by
  rw [parenFindAll.eq_def]
  by_cases hc2 : c = ')' <;> simp [hc, hc2]

/-- Inside a group, a character other than `)` is group content. -/
theorem parenFindAll_cons_some (c : Char) (rest : List Char) (b : List Char)
    (hc : c ≠ ')') :
    parenFindAll (c :: rest) (some b) = parenFindAll rest (some (c :: b)) := by
  rw [parenFindAll.eq_def]
  by_cases hc2 : c = '(' <;> simp [hc, hc2]

/-- `(` opens a group. -/
theorem parenFindAll_enter (rest : List Char) :
    parenFindAll ('(' :: rest) none = parenFindAll rest (some []) := rfl

/-- `)` closes the current group, producing it when nonempty. -/
theorem parenFindAll_close (rest : List Char) (b : List Char) :
    parenFindAll (')' :: rest) (some b) =
      if b.isEmpty then parenFindAll rest none
      else String.mk b.reverse :: parenFindAll rest none := rfl

/-- Consuming group content up to the closing `)` yields that one group. -/
theorem parenFindAll_in_group (grp : List Char) (b : List Char)
    (hgrp : ')' ∉ grp) (hne : b.reverse ++ grp ≠ []) :
    parenFindAll (grp ++ [')']) (some b) = [String.mk (b.reverse ++ grp)] := by
  induction grp generalizing b with
  | nil =>
      have hb : b ≠ [] := by simpa using hne
      have hb' : b.isEmpty = false := by
        cases b with
        | nil => exact absurd rfl hb
        | cons x xs => rfl
      simp only [List.nil_append, parenFindAll_close, hb', Bool.false_eq_true,
        if_false, List.append_nil]
      rfl
  | cons c cs ih =>
      have hc : c ≠ ')' := fun he => hgrp (he ▸ List.mem_cons_self c cs)
      rw [List.cons_append, parenFindAll_cons_some c (cs ++ [')']) b hc]
      have := ih (c :: b) (fun hm => hgrp (List.mem_cons_of_mem c hm))
        (by simp)
      rw [this]
      simp

/-- `PAREN_RE.findall` on a text whose single parenthesized group is `grp`:
exactly that group is found. -/
theorem parenFindAll_group (pre grp : List Char)
    (hpre : '(' ∉ pre) (hgrp : ')' ∉ grp) (hne : grp ≠ []) :
    parenFindAll (pre ++ ('(' :: (grp ++ [')']))) none = [String.mk grp] := by
  induction pre with
  | nil =>
      simp only [List.nil_append]
      rw [parenFindAll_enter]
      have := parenFindAll_in_group grp [] hgrp (by simpa using hne)
      simpa using this
  | cons c rest ih =>
      have hc : c ≠ '(' := fun he => hpre (he ▸ List.mem_cons_self c rest)
      simp only [List.cons_append]
      rw [parenFindAll_cons_none c _ hc]
      exact ih (fun hm => hpre (List.mem_cons_of_mem c hm))

/-- The paren branch of `extract_unit_name` for a booking whose only unit
hint is a free text ending in one parenthesized group: the group's stripped
content is returned when it bears an ASCII letter and is not a pure 5+-digit
run. -/
theorem unit_name_from_last_paren_group (pre grp : String)
    (hpre : '(' ∉ pre.toList) (hgrp : ')' ∉ grp.toList) (hne : grp.toList ≠ [])
    (hstrip : pyStrip (pre ++ "(" ++ grp ++ ")") = pre ++ "(" ++ grp ++ ")")
    (hletter : (pyStrip grp).toList.any isAsciiLetter = true)
    (hdigits : fullmatchDigits5 (pyStrip grp) = false) :
    extract_unit_name (.obj [("source_text", .str (pre ++ "(" ++ grp ++ ")"))])
      = .ok (some (pyStrip grp)) := by
  have hlist : (pre ++ "(" ++ grp ++ ")").toList
      = pre.toList ++ ('(' :: (grp.toList ++ [')'])) := by
    simp [String.toList, String.data_append]
  have hst_ne : (pre ++ "(" ++ grp ++ ")") ≠ "" := by
    intro h
    have h2 : (pre ++ "(" ++ grp ++ ")").toList = [] := by rw [h]; rfl
    rw [hlist] at h2
    simp at h2
  have hgroups : parenFindAll (pre.data ++ ('(' :: (grp.data ++ [')']))) none
      = [String.mk grp.data] :=
    parenFindAll_group pre.data grp.data hpre hgrp hne
  have h0 : pyStrip "" = "" := rfl
  have hletter2 : ∃ x ∈ (pyStrip grp).data, isAsciiLetter x = true := by
    simpa [List.any_eq_true] using hletter
  unfold extract_unit_name
  simp [Json.objGet, Json.orElse, Json.truthy, pyGet, pyStripOfStr, hst_ne,
    hstrip, hgroups, h0, hletter2, hdigits, unit_step2, unit_step34,
    Bind.bind, Except.bind, Pure.pure, Except.pure]

/-- C9 (counterexample): a bracketed `[...]` group is not recognized (the
regex only matches parentheses) — the claimed extraction of `"Queens 8"`
does not happen; and a short pure-digit parenthesized group (`(1234)`,
which the claim's rule would accept) is also rejected, because the code
requires an ASCII letter. -/
theorem bracket_group_not_extracted :
    extract_unit_name
        (.obj [("source_text", .str "Reservation via OTA [Queens 8]")])
      = .ok none ∧
    extract_unit_name (.obj [("source_text", .str "Unit (1234)")]) = .ok none :=
  ⟨rfl, rfl⟩

/-- C9 (amended): when a booking's only unit hint is a free text ending in a
parenthesized group, the extracted unit name is the group's stripped content
provided it contains at least one ASCII letter and is not a pure run of five
or more digits (brackets are not recognized; no two-character minimum
applies to this branch); in particular the mapper writes unit
`"Queens 8"` for the free text `"Reservation via OTA (Queens 8)"`. -/
theorem unit_name_paren_heuristic :
    (∀ pre grp : String, '(' ∉ pre.toList → ')' ∉ grp.toList → grp.toList ≠ [] →
      pyStrip (pre ++ "(" ++ grp ++ ")") = pre ++ "(" ++ grp ++ ")" →
      (pyStrip grp).toList.any isAsciiLetter = true →
      fullmatchDigits5 (pyStrip grp) = false →
      extract_unit_name (.obj [("source_text", .str (pre ++ "(" ++ grp ++ ")"))])
        = .ok (some (pyStrip grp))) ∧
    (map_booking_to_monday ⟨2024, 6, 10⟩ (.obj [("id", .str "1"),
        ("source_text", .str "Reservation via OTA (Queens 8)")])).map
      (fun m => Json.objGet m.column_values "text_mkv49eqm") = .ok (.str "Queens 8") :=
  ⟨fun pre grp h1 h2 h3 h4 h5 h6 =>
    unit_name_from_last_paren_group pre grp h1 h2 h3 h4 h5 h6, rfl⟩

/-- C9 witness: the paren heuristic applied to the spec's own scenario
string. -/
theorem unit_name_paren_heuristic_witness :
    extract_unit_name (.obj [("source_text",
        .str ("Reservation via OTA " ++ "(" ++ "Queens 8" ++ ")"))])
      = .ok (some (pyStrip "Queens 8")) :=
  unit_name_paren_heuristic.1 "Reservation via OTA " "Queens 8"
    (by decide) (by decide) (by decide) (by decide) (by decide) (by decide)

/-! ## C6 — omission over null -/

/-- A successful `pure` determines its result. -/
theorem py_ok_of_pure {α : Type} {x : α} {b : α}
    (h : (pure x : Py α) = Except.ok b) : x = b := Except.ok.inj h

/-- A successful bind runs its continuation successfully on some value. -/
theorem py_ok_of_bind {α β : Type} {x : Py α} {f : α → Py β} {b : β}
    (h : (x >>= f) = Except.ok b) : ∃ a, f a = Except.ok b := by
  cases x with
  | ok a => exact ⟨a, by simpa [Bind.bind, Except.bind] using h⟩
  | error e => simp [Bind.bind, Except.bind] at h

/-- A column id delivered by `COLUMN_MAP.get` is a registered column id. -/
theorem knownColId_of_get {k cid : String} (h : columnMapGet k = some cid) :
    knownColId cid = true := by
  unfold columnMapGet at h
  rcases hf : COLUMN_MAP.find? (fun kv => kv.1 == k) with _ | kv
  · rw [hf] at h; exact Option.noConfusion h
  · rw [hf] at h
    have h2 : kv.2 = cid := by simpa using h
    have hmem := List.mem_of_find?_eq_some hf
    unfold knownColId
    rw [List.any_eq_true]
    exact ⟨kv, hmem, by simp [h2]⟩

/-- Assigning a known column a non-`None` value preserves `cvOK`. -/
theorem cvOK_cvSet {cv : List (String × Json)} {k : String} {v : Json}
    (hcv : cvOK cv = true) (hk : knownColId k = true) (hv : v ≠ Json.null) :
    cvOK (cvSet cv k v) = true := by
  have hp : (knownColId k && !(match v with | Json.null => true | _ => false)) = true := by
    cases v with
    | null => exact absurd rfl hv
    | bool b => simp [hk]
    | num n => simp [hk]
    | str s => simp [hk]
    | arr l => simp [hk]
    | obj l => simp [hk]
  unfold cvSet
  split
  · rw [cvOK, List.all_eq_true]
    intro x hx
    rcases List.mem_map.mp hx with ⟨kv, hkv, hfx⟩
    by_cases he : kv.1 == k
    · simp only [he, if_true] at hfx
      simpa [← hfx] using hp
    · simp only [he, if_false] at hfx
      subst hfx
      exact (List.all_eq_true.mp hcv) kv hkv
  · rw [cvOK, List.all_eq_true]
    intro x hx
    rcases List.mem_append.mp hx with hx | hx
    · exact (List.all_eq_true.mp hcv) x hx
    · rcases List.mem_singleton.mp hx with rfl
      simpa using hp

/-- `put` preserves `cvOK` whatever value it is offered. -/
theorem cvOK_put {cv : List (String × Json)} (k : String) (v : Json)
    (hcv : cvOK cv = true) : cvOK (put cv k v) = true := by
  unfold put
  rcases hg : columnMapGet k with _ | cid
  · exact hcv
  · cases v with
    | null => exact hcv
    | bool b => exact cvOK_cvSet hcv (knownColId_of_get hg) (by simp)
    | num n => exact cvOK_cvSet hcv (knownColId_of_get hg) (by simp)
    | str s => exact cvOK_cvSet hcv (knownColId_of_get hg) (by simp)
    | arr l => exact cvOK_cvSet hcv (knownColId_of_get hg) (by simp)
    | obj l => exact cvOK_cvSet hcv (knownColId_of_get hg) (by simp)

/-- The mapper's column-value block only ever writes known columns with
non-`None` values, for every combination of inputs. -/
theorem cvOK_build (today : PyDate) (bk : Json) (res_id unit_name : String)
    (property_id : Json) (display_name : String) (email : Option String)
    (phone : String) (check_in check_out : Option String) (nights : Option Int)
    (source_label : Option String) (st_blob status_label : String)
    (currency : Json) (total_amount amount_paid amount_due : Int)
    (language adults children infants pets people key_code thread_uid : Json)
    (created_at updated_at canceled_at : Option String) (bs : String) :
    cvOK (build_column_values today bk res_id unit_name property_id display_name
      email phone check_in check_out nights source_label st_blob status_label
      currency total_amount amount_paid amount_due language adults children
      infants pets people key_code thread_uid created_at updated_at
      canceled_at bs) = true := by
  unfold build_column_values
  rcases email with _ | e <;> rcases source_label with _ | lbl <;>
    (repeat' (first | apply cvOK_put | split))
  all_goals rfl

/-- C6 (counterexample): an absent source date still produces a date-column
entry — `{"date": null}` — for the empty booking document, contradicting "an
absent source date produces no date-column entry". -/
theorem absent_date_written_as_null :
    (map_booking_to_monday ⟨2024, 6, 10⟩ (.obj [])).map
      (fun m => Json.objGet m.column_values "date_mkv4npgx")
      = .ok (.obj [("date", Json.null)]) := rfl

/-- C6 (amended): every produced column entry addresses a known column id
and carries a non-`None` top-level value; the number 0 is a present value
(zero nights and zero amount due round-trip), and an absent scalar such as
the phone or property id yields no entry at all — but date fields are always
written as a `{"date": ...}` wrapper whose inner value is `null` when the
source date is absent (the `None` check sees only the wrapper). -/
theorem column_values_policy :
    (∀ today bk m, map_booking_to_monday today bk = .ok m →
      cvOK m.column_values = true) ∧
    ((map_booking_to_monday ⟨2024, 6, 10⟩ (.obj [("id", .str "5"),
        ("arrival", .str "2024-06-01"), ("departure", .str "2024-06-01"),
        ("amount_due", .num 0)])).map
      (fun m => (Json.objGet m.column_values "numeric_mkv4j5aq",
                 Json.objGet m.column_values "numeric_mkv4zk73"))
      = .ok (.num 0, .num 0)) ∧
    ((map_booking_to_monday ⟨2024, 6, 10⟩ (.obj [])).map
      (fun m => (Json.objGet m.column_values "phone_mkv4yk8k",
                 Json.objGet m.column_values "text_mkv4n35j"))
      = .ok (.null, .null)) := by
  refine ⟨?_, rfl, rfl⟩
  intro today bk m hm
  cases bk with
  | obj fields =>
      simp only [map_booking_to_monday] at hm
      repeat' (first
        | (obtain rfl := py_ok_of_pure hm)
        | (obtain ⟨_, hm⟩ := py_ok_of_bind hm))
      apply cvOK_build
  | null => simp [map_booking_to_monday] at hm
  | bool b => simp [map_booking_to_monday] at hm
  | num n => simp [map_booking_to_monday] at hm
  | str s => simp [map_booking_to_monday] at hm
  | arr l => simp [map_booking_to_monday] at hm

/-- C6 witness: the column policy applied to a concrete one-field booking. -/
theorem column_values_policy_witness :
    ∃ m, map_booking_to_monday ⟨2024, 6, 10⟩ (.obj [("id", .str "1")]) = .ok m ∧
      cvOK m.column_values = true := by
  refine ⟨_, rfl, ?_⟩
  exact column_values_policy.1 ⟨2024, 6, 10⟩ (.obj [("id", .str "1")]) _ rfl

/-! ## C2 — extraction totality on well-shaped documents -/


/-- A bind whose left side already succeeded runs its continuation. -/
theorem py_bind_ok_eq {α β : Type} (a : α) (f : α → Py β) :
    ((Except.ok a : Py α) >>= f) = f a := rfl

/-- The text normalizer on a string argument: end-strip then lower-case. -/
theorem normText_str (s : String) :
    normText (.str s) = .ok (pyLower (pyStrip s)) := by
  by_cases hs : s = ""
  · subst hs; rfl
  · simp [normText, pyStripOfStr, Json.orElse, Json.truthy, hs,
      Bind.bind, Except.bind, Pure.pure, Except.pure]

/-- The source classifier never raises on string arguments. -/
theorem label_for_source_str (a b : String) :
    ∃ l, label_for_source (.str a) (.str b) = .ok l := by
  simp only [label_for_source, normText_str, py_bind_ok_eq]
  split
  · exact ⟨_, rfl⟩
  · split
    · exact ⟨_, rfl⟩
    · split
      · exact ⟨_, rfl⟩
      · split
        · exact ⟨_, rfl⟩
        · split
          · exact ⟨_, rfl⟩
          · exact ⟨_, rfl⟩

/-- The status classifier on a string argument: lower, strip, table lookup. -/
theorem label_for_status_str (s : String) :
    label_for_status (.str s) = .ok (statusLabelsGet (pyStrip (pyLower s))) := by
  by_cases hs : s = ""
  · subst hs; rfl
  · simp [label_for_status, Json.orElse, Json.truthy, hs]

/-- The source fallback blob never raises on string arguments. -/
theorem source_blob_str (sa sb : String) :
    ∃ s, source_blob (.str sa) (.str sb) = .ok s := by
  by_cases hb : sb = ""
  · subst hb
    exact ⟨pyStrip (sa ++ ""), by simp [source_blob, Json.truthy, pyAdd,
      pyStripOfStr, Bind.bind, Except.bind, Pure.pure, Except.pure]⟩
  · exact ⟨pyStrip (sa ++ (" " ++ sb)), by simp [source_blob, Json.truthy, hb,
      pyAdd, pyStripOfStr, Bind.bind, Except.bind, Pure.pure, Except.pure]⟩

/-- Python `(v or d)` is a string for string-or-falsy `v` and a string default. -/
theorem orElse_strD {v : Json} (d : String) (h : strOrFalsy v = true) :
    ∃ s, v.orElse (.str d) = .str s := by
  cases v with
  | str s =>
      by_cases hs : s = ""
      · subst hs; exact ⟨d, rfl⟩
      · exact ⟨s, by simp [Json.orElse, Json.truthy, hs]⟩
  | null => exact ⟨d, rfl⟩
  | bool b => cases b with
      | false => exact ⟨d, rfl⟩
      | true => simp [strOrFalsy, Json.truthy] at h
  | num n =>
      have hn : n = 0 := by simpa [strOrFalsy, Json.truthy] using h
      subst hn; exact ⟨d, rfl⟩
  | arr l => cases l with
      | nil => exact ⟨d, rfl⟩
      | cons x xs => simp [strOrFalsy, Json.truthy] at h
  | obj l => cases l with
      | nil => exact ⟨d, rfl⟩
      | cons x xs => simp [strOrFalsy, Json.truthy] at h

/-- A well-shaped `rental` field: `(rental or \x7b\x7d)` is a dict whose `name` entry is string-or-falsy. -/
theorem rental_shape {fields : List (String × Json)}
    (h : rentalWellShaped fields = true) :
    ∃ rf, (Json.objGet fields "rental").orElse (.obj []) = .obj rf ∧
      strOrFalsy (Json.objGet rf "name") = true := by
  unfold rentalWellShaped at h
  cases hv : Json.objGet fields "rental" with
  | obj l =>
      rw [hv] at h
      cases l with
      | nil => exact ⟨[], rfl, h⟩
      | cons x xs =>
          exact ⟨x :: xs, by simp [Json.orElse, Json.truthy], h⟩
  | null => exact ⟨[], rfl, rfl⟩
  | bool b =>
      rw [hv] at h
      cases b with
      | false => exact ⟨[], rfl, rfl⟩
      | true => simp [Json.truthy] at h
  | num n =>
      rw [hv] at h
      have hn : n = 0 := by simpa [Json.truthy] using h
      subst hn; exact ⟨[], rfl, rfl⟩
  | str s =>
      rw [hv] at h
      have hs : s = "" := by simpa [Json.truthy] using h
      subst hs; exact ⟨[], rfl, rfl⟩
  | arr l =>
      rw [hv] at h
      cases l with
      | nil => exact ⟨[], rfl, rfl⟩
      | cons x xs => simp [Json.truthy] at h

/-- A well-shaped `rental` field is a dict or falsy. -/
theorem rental_objOrFalsy {fields : List (String × Json)}
    (h : rentalWellShaped fields = true) :
    objOrFalsy (Json.objGet fields "rental") = true := by
  unfold rentalWellShaped at h
  cases hv : Json.objGet fields "rental" with
  | obj l => rfl
  | null => rfl
  | bool b => rw [hv] at h; exact h
  | num n => rw [hv] at h; exact h
  | str s => rw [hv] at h; exact h
  | arr l => rw [hv] at h; exact h

/-- A well-shaped `guest` field: `(guest or \x7b\x7d)` is a dict whose name/email entries are string-or-falsy. -/
theorem guest_shape {fields : List (String × Json)}
    (h : guestWellShaped fields = true) :
    ∃ gf, (Json.objGet fields "guest").orElse (.obj []) = .obj gf ∧
      strOrFalsy (Json.objGet gf "name") = true ∧
      strOrFalsy (Json.objGet gf "first_name") = true ∧
      strOrFalsy (Json.objGet gf "last_name") = true ∧
      strOrFalsy (Json.objGet gf "email") = true := by
  unfold guestWellShaped at h
  cases hv : Json.objGet fields "guest" with
  | obj l =>
      rw [hv] at h
      simp only [Bool.and_eq_true] at h
      obtain ⟨⟨⟨h1, h2⟩, h3⟩, h4⟩ := h
      cases l with
      | nil => exact ⟨[], rfl, h1, h2, h3, h4⟩
      | cons x xs =>
          exact ⟨x :: xs, by simp [Json.orElse, Json.truthy], h1, h2, h3, h4⟩
  | null => exact ⟨[], rfl, rfl, rfl, rfl, rfl⟩
  | bool b =>
      rw [hv] at h
      cases b with
      | false => exact ⟨[], rfl, rfl, rfl, rfl, rfl⟩
      | true => simp [Json.truthy] at h
  | num n =>
      rw [hv] at h
      have hn : n = 0 := by simpa [Json.truthy] using h
      subst hn; exact ⟨[], rfl, rfl, rfl, rfl, rfl⟩
  | str s =>
      rw [hv] at h
      have hs : s = "" := by simpa [Json.truthy] using h
      subst hs; exact ⟨[], rfl, rfl, rfl, rfl, rfl⟩
  | arr l =>
      rw [hv] at h
      cases l with
      | nil => exact ⟨[], rfl, rfl, rfl, rfl, rfl⟩
      | cons x xs => simp [Json.truthy] at h

/-- A dict-or-falsy `guest_breakdown`: `(gb or \x7b\x7d)` is the dict `gbFields gb`. -/
theorem gb_shape {gb : Json} (h : objOrFalsy gb = true) :
    gb.orElse (.obj []) = .obj (gbFields gb) := by
  cases gb with
  | obj l => cases l with
      | nil => rfl
      | cons x xs => simp [Json.orElse, Json.truthy, gbFields]
  | null => rfl
  | bool b => cases b with
      | false => rfl
      | true => simp [objOrFalsy, Json.truthy] at h
  | num n =>
      have hn : n = 0 := by simpa [objOrFalsy, Json.truthy] using h
      subst hn; rfl
  | str s =>
      have hs : s = "" := by simpa [objOrFalsy, Json.truthy] using h
      subst hs; rfl
  | arr l => cases l with
      | nil => rfl
      | cons x xs => simp [objOrFalsy, Json.truthy] at h

/-- A well-shaped `rooms` field: `(rooms or [])` is either empty or headed by a dict with dict-or-falsy breakdown, string-or-falsy key code, and a truthy `people` or summable counts. -/
theorem rooms_shape {fields : List (String × Json)}
    (h : roomsWellShaped fields = true) :
    (Json.objGet fields "rooms").orElse (.arr []) = .arr [] ∨
    ∃ rf rest,
      (Json.objGet fields "rooms").orElse (.arr []) = .arr (.obj rf :: rest) ∧
      objOrFalsy (Json.objGet rf "guest_breakdown") = true ∧
      strOrFalsy (Json.objGet rf "key_code") = true ∧
      ((Json.objGet rf "people").truthy = true ∨
        (numOrBoolOrFalsy (Json.objGet
            (gbFields (Json.objGet rf "guest_breakdown")) "adults") = true ∧
         numOrBoolOrFalsy (Json.objGet
            (gbFields (Json.objGet rf "guest_breakdown")) "children") = true ∧
         numOrBoolOrFalsy (Json.objGet
            (gbFields (Json.objGet rf "guest_breakdown")) "infants") = true ∧
         numOrBoolOrFalsy (Json.objGet
            (gbFields (Json.objGet rf "guest_breakdown")) "pets") = true)) := by
  unfold roomsWellShaped at h
  cases hv : Json.objGet fields "rooms" with
  | arr l =>
      rw [hv] at h
      cases l with
      | nil => left; rfl
      | cons r0 rest =>
          cases r0 with
          | obj rf =>
              right
              refine ⟨rf, rest, by simp [Json.orElse, Json.truthy], ?_⟩
              simp only [Bool.and_eq_true, Bool.or_eq_true] at h
              obtain ⟨⟨h1, h2⟩, h3⟩ := h
              refine ⟨h1, h2, ?_⟩
              rcases h3 with h3 | h3
              · exact Or.inl h3
              · obtain ⟨⟨⟨d, e⟩, f⟩, g⟩ := h3
                exact Or.inr ⟨d, e, f, g⟩
          | null => simp at h
          | bool b => simp at h
          | num n => simp at h
          | str s => simp at h
          | arr l2 => simp at h
  | null => left; rfl
  | bool b =>
      rw [hv] at h
      cases b with
      | false => left; rfl
      | true => simp [Json.truthy] at h
  | num n =>
      rw [hv] at h
      have hn : n = 0 := by simpa [Json.truthy] using h
      subst hn; left; rfl
  | str s =>
      rw [hv] at h
      have hs : s = "" := by simpa [Json.truthy] using h
      subst hs; left; rfl
  | obj l =>
      rw [hv] at h
      cases l with
      | nil => left; rfl
      | cons x xs => simp [Json.truthy] at h

/-- The `property_id` read never raises when `rental` is a dict or falsy. -/
theorem property_id_raw_ok (fields : List (String × Json))
    (hr : objOrFalsy (Json.objGet fields "rental") = true) :
    ∃ v, property_id_raw fields = .ok v := by
  unfold property_id_raw
  by_cases hp : (Json.objGet fields "property_id").truthy = true
  · exact ⟨Json.objGet fields "property_id", by rw [if_pos hp]; rfl⟩
  · obtain ⟨fs, hfs⟩ := orElse_obj hr
    refine ⟨Json.objGet fs "id", ?_⟩
    rw [if_neg hp, hfs]
    rfl

/-- The rooms/people block never raises on a well-shaped `rooms` field. -/
theorem rooms_info_ok (fields : List (String × Json))
    (h : roomsWellShaped fields = true) :
    ∃ t, rooms_info fields = .ok t := by
  rcases rooms_shape h with hempty | ⟨rf, rest, hrr, hgb, hkc, hpp⟩
  · refine ⟨(Json.null, Json.null, Json.null, Json.null, Json.null, Json.null), ?_⟩
    unfold rooms_info
    rw [hempty]
    rfl
  · have hgbE := gb_shape hgb
    have htr : (Json.arr (Json.obj rf :: rest)).truthy = true := rfl
    by_cases hppl : (Json.objGet rf "people").truthy = true
    · refine ⟨(Json.objGet (gbFields (Json.objGet rf "guest_breakdown")) "adults",
        Json.objGet (gbFields (Json.objGet rf "guest_breakdown")) "children",
        Json.objGet (gbFields (Json.objGet rf "guest_breakdown")) "infants",
        Json.objGet (gbFields (Json.objGet rf "guest_breakdown")) "pets",
        Json.objGet rf "people",
        (Json.objGet rf "key_code").orElse (.str "")), ?_⟩
      simp [rooms_info, hrr, hgbE, pyIndex0, pyGet, hppl, htr,
        py_bind_ok_eq, Pure.pure, Except.pure]
    · rcases hpp with hppl2 | ⟨ha, hc, hi, hp4⟩
      · exact absurd hppl2 hppl
      · have ha2 := orElse_num_isNumBool ha
        have hc2 := orElse_num_isNumBool hc
        have hi2 := orElse_num_isNumBool hi
        have hp2 := orElse_num_isNumBool hp4
        obtain ⟨n1, hadd1⟩ := pyAdd_numBool ha2 hc2
        obtain ⟨n2, hadd2⟩ :=
          pyAdd_numBool (show isNumBool (.num n1) = true from rfl) hi2
        obtain ⟨n3, hadd3⟩ :=
          pyAdd_numBool (show isNumBool (.num n2) = true from rfl) hp2
        refine ⟨(Json.objGet (gbFields (Json.objGet rf "guest_breakdown")) "adults",
          Json.objGet (gbFields (Json.objGet rf "guest_breakdown")) "children",
          Json.objGet (gbFields (Json.objGet rf "guest_breakdown")) "infants",
          Json.objGet (gbFields (Json.objGet rf "guest_breakdown")) "pets",
          Json.num n3,
          (Json.objGet rf "key_code").orElse (.str "")), ?_⟩
        simp [rooms_info, hrr, hgbE, pyIndex0, pyGet, hppl, hadd1, hadd2, hadd3,
          htr, py_bind_ok_eq, Pure.pure, Except.pure]

/-- The unit-name extractor never raises on a well-shaped document. -/
theorem extract_unit_name_ok (fields : List (String × Json))
    (hr : rentalWellShaped fields = true)
    (hstx : strOrFalsy (Json.objGet fields "source_text") = true)
    (hsrc : strOrFalsy (Json.objGet fields "source") = true)
    (hrooms : roomsWellShaped fields = true) :
    ∃ u, extract_unit_name (.obj fields) = .ok u := by
  obtain ⟨rf, hrf, hname⟩ := rental_shape hr
  have hstrip := stripOr_ok hname
  obtain ⟨s0, h0⟩ := orElse_strD "" hsrc
  obtain ⟨s1, h1⟩ := orElse_strD s0 hstx
  have hsp : pyStripOfStr (Json.str s1) = .ok (pyStrip s1) := rfl
  by_cases hnm : stripOrVal (Json.objGet rf "name") = ""
  · rcases h2 : unit_step2 (Json.objGet fields "unit_name") with _ | u
    · rcases h34 : unit_step34 (pyStrip s1) with _ | c
      · rcases rooms_shape hrooms with hempty | ⟨rf2, rest, hrr, hgb, hkc, hpp⟩
        · refine ⟨none, ?_⟩
          simp [extract_unit_name, hrf, pyGet, py_bind_ok_eq, hstrip, hnm, h2,
            h0, h1, h34, hempty, hsp, Json.truthy, Pure.pure, Except.pure]
        · have hkcE := stripOr_ok hkc
          by_cases hkc0 : stripOrVal (Json.objGet rf2 "key_code") = ""
          · refine ⟨none, ?_⟩
            simp [extract_unit_name, hrf, pyGet, py_bind_ok_eq, hstrip, hnm, h2,
              h0, h1, h34, hrr, pyIndex0, hkcE, hkc0, hsp, Json.truthy,
              Pure.pure, Except.pure]
          · refine ⟨some (stripOrVal (Json.objGet rf2 "key_code")), ?_⟩
            simp [extract_unit_name, hrf, pyGet, py_bind_ok_eq, hstrip, hnm, h2,
              h0, h1, h34, hrr, pyIndex0, hkcE, hkc0, hsp, Json.truthy,
              Pure.pure, Except.pure]
      · refine ⟨some c, ?_⟩
        simp [extract_unit_name, hrf, pyGet, py_bind_ok_eq, hstrip, hnm, h2,
          h0, h1, h34, hsp, Pure.pure, Except.pure]
    · refine ⟨some u, ?_⟩
      simp [extract_unit_name, hrf, pyGet, py_bind_ok_eq, hstrip, hnm, h2,
        Pure.pure, Except.pure]
  · refine ⟨some (stripOrVal (Json.objGet rf "name")), ?_⟩
    simp [extract_unit_name, hrf, pyGet, py_bind_ok_eq, hstrip, hnm,
      Pure.pure, Except.pure]

/-- C2 (amended): extraction never raises on well-shaped documents — a dict
whose `rental`/`guest` are dicts or falsy, whose guest name/email fields and
top-level `status`/`source`/`source_text` are strings or falsy, and whose
`rooms` entry is well-shaped; every other leaf (dates, money, ids) may be
arbitrarily malformed and degrades individually.  Outside this shape the
mapper can raise (see the counterexample), so totality is conditional, not
universal. -/
theorem extraction_total_wellShaped (today : PyDate) (bk : Json)
    (h : wellShaped bk = true) :
    ∃ m, map_booking_to_monday today bk = .ok m := by
  cases bk with
  | obj fields =>
      simp only [wellShaped, Bool.and_eq_true] at h
      obtain ⟨⟨⟨⟨⟨hrent, hgst⟩, hstt⟩, hsrc⟩, hstx⟩, hrms⟩ := h
      obtain ⟨pid, hpid⟩ := property_id_raw_ok fields (rental_objOrFalsy hrent)
      obtain ⟨u, hu⟩ := extract_unit_name_ok fields hrent hstx hsrc hrms
      obtain ⟨gf, hg, hn1, hn2, hn3, hn4⟩ := guest_shape hgst
      have hsn := stripOr_ok hn1
      have hfn := stripOr_ok hn2
      have hln := stripOr_ok hn3
      have hem := stripOr_ok hn4
      obtain ⟨ss, hss⟩ := orElse_str hstt
      have hls := label_for_status_str ss
      obtain ⟨sa, hsa⟩ := orElse_str hsrc
      obtain ⟨sb, hsb⟩ := orElse_str hstx
      obtain ⟨lbl, hlbl⟩ := label_for_source_str sa sb
      obtain ⟨sblob, hsblob⟩ := source_blob_str sa sb
      have hbs : pyStripOfStr ((Json.str ss).orElse (.str ""))
          = .ok (stripOrVal (.str ss)) := stripOr_ok rfl
      obtain ⟨⟨adults, children, infants, pets, people, key_code⟩, hri⟩ :=
        rooms_info_ok fields hrms
      rcases hX : map_booking_to_monday today (Json.obj fields) with e | m
      · exfalso
        simp only [map_booking_to_monday, hpid, hu, hg, pyGet, hsn, hfn, hln,
          hem, hss, hls, hsa, hsb, hlbl, hsblob, hbs, hri, py_bind_ok_eq,
          Pure.pure, Except.pure] at hX
        exact Except.noConfusion hX
      · exact ⟨m, rfl⟩
  | null => simp [wellShaped] at h
  | bool b => simp [wellShaped] at h
  | num n => simp [wellShaped] at h
  | str s => simp [wellShaped] at h
  | arr l => simp [wellShaped] at h

/-- C2 (counterexample): a booking whose `rental` field is a string (where
a dict is expected) aborts the whole extraction with an `AttributeError`
instead of degrading that field — `map_booking_to_monday` raises. -/
theorem extraction_raises_on_string_rental :
    ∃ e, map_booking_to_monday ⟨2024, 6, 10⟩ (.obj [("rental", .str "foo")])
      = .error e :=
  ⟨"AttributeError: no attribute get (id)", rfl⟩

/-- C2 witness: a concrete well-shaped booking with malformed leaves (a
list id, a numeric arrival date) maps successfully. -/
theorem extraction_total_wellShaped_witness :
    wellShaped (.obj [("id", .arr [.null]), ("arrival", .num 5),
        ("guest", .obj [("name", .str "Anna Lee")])]) = true ∧
    ∃ m, map_booking_to_monday ⟨2024, 6, 10⟩ (.obj [("id", .arr [.null]),
        ("arrival", .num 5), ("guest", .obj [("name", .str "Anna Lee")])])
      = .ok m :=
  ⟨by decide, extraction_total_wellShaped ⟨2024, 6, 10⟩ _ (by decide)⟩

/-! ## C8 — batch failure isolation -/


/-- The batch loop never raises on an all-dict batch: it returns one
outcome per handled item, counts only successes in `processed`, and covers
the whole batch when no time is consumed. -/
theorem loop_dict_total (step : Board → Json → Py (UpsertResult × Board))
    (max_sec : Nat) :
    ∀ (items : List (Json × Nat)) (B : Board) (elapsed processed : Nat),
    allDictItems items = true → elapsed ≤ max_sec →
    ∃ outs p Bf,
      lodgify_sync_loop step max_sec B elapsed processed items
        = .ok (outs, p, Bf) ∧
      p = processed + (outs.filter (fun o => o.isSucc)).length ∧
      outs.length ≤ items.length ∧
      (items.all (fun it => it.2 == 0) = true → outs.length = items.length) := by
  intro items
  induction items with
  | nil =>
      intro B elapsed processed hdict helapsed
      exact ⟨[], processed, B, rfl, by simp, by simp, by simp⟩
  | cons x rest ih =>
      intro B elapsed processed hdict helapsed
      obtain ⟨bk, d⟩ := x
      simp only [allDictItems, List.all_cons, Bool.and_eq_true] at hdict
      obtain ⟨hbk, hrest⟩ := hdict
      cases bk with
      | obj fs =>
          cases hstep : step B (.obj fs) with
          | ok rb =>
              obtain ⟨r, B2⟩ := rb
              by_cases hcut : elapsed + d > max_sec
              · refine ⟨[.succ r], processed + 1, B2, ?_, ?_, by simp, ?_⟩
                · simp only [lodgify_sync_loop, hstep]
                  rw [if_pos hcut]
                · rfl
                · intro hz
                  simp only [List.all_cons, Bool.and_eq_true] at hz
                  obtain ⟨hz0, hzr⟩ := hz
                  have hd : d = 0 := by simpa using hz0
                  omega
              · obtain ⟨outs, p, Bf, heq, hp, hlen, hzr⟩ :=
                  ih B2 (elapsed + d) (processed + 1) hrest (by omega)
                refine ⟨.succ r :: outs, p, Bf, ?_, ?_, ?_, ?_⟩
                · simp only [lodgify_sync_loop, hstep]
                  rw [if_neg hcut, heq]
                · have hf : List.filter (fun o => o.isSucc)
                      (BatchOutcome.succ r :: outs)
                      = BatchOutcome.succ r
                          :: List.filter (fun o => o.isSucc) outs := rfl
                  rw [hf, List.length_cons]
                  omega
                · simp only [List.length_cons]
                  omega
                · intro hz
                  simp only [List.all_cons, Bool.and_eq_true] at hz
                  obtain ⟨hz0, hzr2⟩ := hz
                  simp only [List.length_cons, hzr hzr2]
          | error e =>
              by_cases hcut : elapsed + d > max_sec
              · refine ⟨[.fail e (Json.objGet fs "id")], processed, B, ?_, ?_,
                  by simp, ?_⟩
                · simp only [lodgify_sync_loop, hstep, pyGet]
                  rw [if_pos hcut]
                · rfl
                · intro hz
                  simp only [List.all_cons, Bool.and_eq_true] at hz
                  obtain ⟨hz0, hzr⟩ := hz
                  have hd : d = 0 := by simpa using hz0
                  omega
              · obtain ⟨outs, p, Bf, heq, hp, hlen, hzr⟩ :=
                  ih B (elapsed + d) processed hrest (by omega)
                refine ⟨.fail e (Json.objGet fs "id") :: outs, p, Bf, ?_, ?_, ?_, ?_⟩
                · simp only [lodgify_sync_loop, hstep, pyGet]
                  rw [if_neg hcut, heq]
                · have hf : List.filter (fun o => o.isSucc)
                      (BatchOutcome.fail e (Json.objGet fs "id") :: outs)
                      = List.filter (fun o => o.isSucc) outs := rfl
                  rw [hf]
                  exact hp
                · simp only [List.length_cons]
                  omega
                · intro hz
                  simp only [List.all_cons, Bool.and_eq_true] at hz
                  obtain ⟨hz0, hzr2⟩ := hz
                  simp only [List.length_cons, hzr hzr2]
      | null => simp at hbk
      | bool b => simp at hbk
      | num n => simp at hbk
      | str s => simp at hbk
      | arr l => simp at hbk

/-- C8 (amended): for an all-dict batch the coordinator returns per-item
outcomes with `next_skip = skip + processed` where `processed` counts only
successful items (not items handled), and covers every item when the time
budget is not consumed; a failing dict item is recorded as a per-item error
carrying `bk.get("id")` and the remaining items are still processed; once
the elapsed time exceeds the budget the loop stops after the current item.
Isolation is conditional on the items being dicts (see the counterexample). -/
theorem batch_isolation_dict_bookings :
    (∀ step max_sec skip B (items : List (Json × Nat)),
      allDictItems items = true →
      ∃ outs p Bf,
        lodgify_sync_all step max_sec skip items B = .ok (outs, p, skip + p, Bf) ∧
        p = (outs.filter (fun o => o.isSucc)).length ∧
        outs.length ≤ items.length ∧
        (items.all (fun it => it.2 == 0) = true → outs.length = items.length)) ∧
    (∀ step max_sec B elapsed processed fs d rest e,
      step B (Json.obj fs) = .error e → elapsed + d ≤ max_sec →
      lodgify_sync_loop step max_sec B elapsed processed ((Json.obj fs, d) :: rest)
        = match lodgify_sync_loop step max_sec B (elapsed + d) processed rest with
          | .ok (outs, p, Bf) => .ok (.fail e (Json.objGet fs "id") :: outs, p, Bf)
          | .error e2 => .error e2) ∧
    (∀ step max_sec B elapsed processed bk d rest r B2,
      step B bk = .ok (r, B2) → elapsed + d > max_sec →
      lodgify_sync_loop step max_sec B elapsed processed ((bk, d) :: rest)
        = .ok ([.succ r], processed + 1, B2)) := by
  refine ⟨?_, ?_, ?_⟩
  · intro step max_sec skip B items hdict
    obtain ⟨outs, p, Bf, heq, hp, hlen, hz⟩ :=
      loop_dict_total step max_sec items B 0 0 hdict (Nat.zero_le _)
    refine ⟨outs, p, Bf, ?_, by simpa using hp, hlen, hz⟩
    unfold lodgify_sync_all
    rw [heq]
  · intro step max_sec B elapsed processed fs d rest e hstep hle
    simp only [lodgify_sync_loop, hstep, pyGet]
    rw [if_neg (by omega)]
  · intro step max_sec B elapsed processed bk d rest r B2 hstep hcut
    simp only [lodgify_sync_loop, hstep]
    rw [if_pos hcut]

/-- C8 (counterexample): a failing non-dict batch item is not isolated —
the `except` block evaluates `bk.get("id")`, which itself raises, so the
whole batch aborts and the sibling item is never processed. -/
theorem nondict_item_aborts_batch :
    ∃ e, lodgify_sync_all (sync_step ⟨2024, 6, 10⟩) 24 0
        [(Json.str "bad", 0), (Json.obj [("id", Json.str "1")], 0)] ⟨1, []⟩
      = .error e :=
  ⟨"AttributeError: no attribute get (id)", rfl⟩

/-- C8 witness: the amended coordinator contract applied to a concrete
one-item batch. -/
theorem batch_isolation_dict_bookings_witness :
    allDictItems [(Json.obj [], 0)] = true ∧
    ∃ outs p Bf,
      lodgify_sync_all (sync_step ⟨2024, 6, 10⟩) 24 5 [(Json.obj [], 0)] ⟨1, []⟩
        = .ok (outs, p, 5 + p, Bf) ∧
      p = (outs.filter (fun o => o.isSucc)).length ∧
      outs.length ≤ [(Json.obj [], 0)].length ∧
      (([(Json.obj [], 0)] : List (Json × Nat)).all (fun it => it.2 == 0) = true →
        outs.length = [(Json.obj [], 0)].length) :=
  ⟨rfl, batch_isolation_dict_bookings.1 (sync_step ⟨2024, 6, 10⟩) 24 5 ⟨1, []⟩
    [(Json.obj [], 0)] rfl⟩

/-! ## C1 — idempotent upsert -/


/-- Dict lookup skips a non-matching head entry. -/
theorem objGet_cons_of_neg {c : String × Json} {cs : List (String × Json)}
    {k : String} (hc : (c.1 == k) = false) :
    Json.objGet (c :: cs) k = Json.objGet cs k := by
  unfold Json.objGet
  rw [List.find?_cons_of_neg _ (by simp [hc])]

/-- Dict lookup returns a matching head entry. -/
theorem objGet_cons_of_pos {c : String × Json} {cs : List (String × Json)}
    {k : String} (hc : (c.1 == k) = true) :
    Json.objGet (c :: cs) k = c.2 := by
  unfold Json.objGet
  rw [List.find?_cons_of_pos _ (by simpa using hc)]

/-- Replacing the bindings of a present key makes lookup return the new value. -/
theorem objGet_map_set_self (k : String) (v : Json) :
    ∀ (cols : List (String × Json)),
    cols.any (fun kv => kv.1 == k) = true →
    Json.objGet (cols.map (fun kv => if kv.1 == k then (k, v) else kv)) k = v := by
  intro cols
  induction cols with
  | nil => intro h; simp at h
  | cons c cs ih =>
      intro h
      simp only [List.any_cons, Bool.or_eq_true] at h
      simp only [List.map_cons]
      by_cases hc : (c.1 == k) = true
      · rw [if_pos hc]
        rw [objGet_cons_of_pos (by simp)]
      · rw [if_neg hc]
        rcases h with h | h
        · exact absurd h hc
        · rw [objGet_cons_of_neg (Bool.eq_false_iff.mpr hc)]
          exact ih h

/-- Appending a binding for an absent key makes lookup return it. -/
theorem objGet_append_single (k : String) (v : Json) :
    ∀ (cols : List (String × Json)),
    cols.any (fun kv => kv.1 == k) = false →
    Json.objGet (cols ++ [(k, v)]) k = v := by
  intro cols
  induction cols with
  | nil => intro h; rw [List.nil_append, objGet_cons_of_pos (by simp)]
  | cons c cs ih =>
      intro h
      simp only [List.any_cons, Bool.or_eq_false_iff] at h
      obtain ⟨hc, hcs⟩ := h
      rw [List.cons_append, objGet_cons_of_neg hc]
      exact ih hcs

/-- After `cv[k] = v`, looking `k` up yields `v`. -/
theorem objGet_cvSet_self (cols : List (String × Json)) (k : String) (v : Json) :
    Json.objGet (cvSet cols k v) k = v := by
  unfold cvSet
  by_cases h : cols.any (fun kv => kv.1 == k) = true
  · rw [if_pos h]; exact objGet_map_set_self k v cols h
  · rw [if_neg h]
    exact objGet_append_single k v cols (Bool.eq_false_iff.mpr h)

/-- Replacing the bindings of one key leaves other lookups unchanged. -/
theorem objGet_map_set_ne {k q : String} (v : Json) (hne : (k == q) = false) :
    ∀ (cols : List (String × Json)),
    Json.objGet (cols.map (fun kv => if kv.1 == k then (k, v) else kv)) q
      = Json.objGet cols q := by
  intro cols
  induction cols with
  | nil => rfl
  | cons c cs ih =>
      simp only [List.map_cons]
      by_cases hc : (c.1 == k) = true
      · rw [if_pos hc]
        have hcq : (c.1 == q) = false := by
          have hk : c.1 = k := by simpa using hc
          rw [hk]; exact hne
        rw [objGet_cons_of_neg hne, objGet_cons_of_neg hcq]
        exact ih
      · rw [if_neg hc]
        by_cases hcq : (c.1 == q) = true
        · rw [objGet_cons_of_pos hcq, objGet_cons_of_pos hcq]
        · rw [objGet_cons_of_neg (Bool.eq_false_iff.mpr hcq),
            objGet_cons_of_neg (Bool.eq_false_iff.mpr hcq)]
          exact ih

/-- Appending a binding for one key leaves other lookups unchanged. -/
theorem objGet_append_single_ne {k q : String} (v : Json) (hne : (k == q) = false) :
    ∀ (cols : List (String × Json)),
    Json.objGet (cols ++ [(k, v)]) q = Json.objGet cols q := by
  intro cols
  induction cols with
  | nil => rw [List.nil_append, objGet_cons_of_neg hne]
  | cons c cs ih =>
      rw [List.cons_append]
      by_cases hcq : (c.1 == q) = true
      · rw [objGet_cons_of_pos hcq, objGet_cons_of_pos hcq]
      · rw [objGet_cons_of_neg (Bool.eq_false_iff.mpr hcq),
          objGet_cons_of_neg (Bool.eq_false_iff.mpr hcq)]
        exact ih

/-- After `cv[k] = v`, other keys read as before. -/
theorem objGet_cvSet_ne (cols : List (String × Json)) {k q : String} (v : Json)
    (hne : (k == q) = false) :
    Json.objGet (cvSet cols k v) q = Json.objGet cols q := by
  unfold cvSet
  by_cases h : cols.any (fun kv => kv.1 == k) = true
  · rw [if_pos h]; exact objGet_map_set_ne v hne cols
  · rw [if_neg h]; exact objGet_append_single_ne v hne cols

/-- The last binding of a key in a cons: the tail wins over the head. -/
theorem cvLast_cons (p : String × Json) (cv : List (String × Json)) (k : String) :
    cvLast (p :: cv) k
      = match cvLast cv k with
        | some v => some v
        | none => if (p.1 == k) = true then some p.2 else none := by
  unfold cvLast
  simp only [List.reverse_cons, List.find?_append]
  cases hF : List.find? (fun kv => kv.1 == k) cv.reverse with
  | some kv => simp [Option.or]
  | none =>
      by_cases hp : (p.1 == k) = true
      · simp [Option.or, List.find?_cons, hp]
      · simp [Option.or, List.find?_cons, Bool.eq_false_iff.mpr hp]

/-- A merge leaves, for each key, the last pushed value, or the stored one when the push does not bind the key. -/
theorem cvMerge_objGet (k : String) :
    ∀ (cv cols : List (String × Json)),
    Json.objGet (cvMerge cols cv) k
      = (cvLast cv k).getD (Json.objGet cols k) := by
  intro cv
  induction cv with
  | nil => intro cols; rfl
  | cons p cv ih =>
      intro cols
      have hstep : cvMerge cols (p :: cv) = cvMerge (cvSet cols p.1 p.2) cv := rfl
      rw [hstep, ih, cvLast_cons]
      cases hlast : cvLast cv k with
      | some v => rfl
      | none =>
          simp only [Option.getD]
          by_cases hp : (p.1 == k) = true
          · rw [if_pos hp]
            have hk : p.1 = k := by simpa using hp
            rw [← hk, objGet_cvSet_self]
          · rw [if_neg hp]
            rw [objGet_cvSet_ne cols p.2 (Bool.eq_false_iff.mpr hp)]

/-- A merged item reads back the last pushed text for a key the push binds. -/
theorem colText_merge (cols cv : List (String × Json)) (k e : String)
    (h2 : cvLast cv k = some (.str e)) :
    colText (cvMerge cols cv) k = e := by
  unfold colText
  rw [cvMerge_objGet, h2]
  rfl

/-- `_safe_upsert` on a board with no matching record: creates a fresh active item under the disambiguated name and reports created. -/
theorem safe_upsert_create (B : Board) (name ext : String)
    (cv : List (String × Json))
    (hnone : matchingItems B lookupColId ext = []) :
    safe_upsert B ⟨name, ext, cv⟩
      = (⟨true, some B.nextId, true, false, none⟩,
         ⟨B.nextId + 1,
          B.items ++ [⟨B.nextId, "active", name ++ " • #" ++ ext, cv⟩]⟩) := by
  simp only [safe_upsert, find_item_by_external_id, hnone]
  rfl

/-- The matching records after a create: the old ones plus the new item when its lookup column carries the key. -/
theorem matchingItems_create (B : Board) (ext nm : String)
    (cv : List (String × Json)) (n i : Nat)
    (hcv : Json.objGet cv lookupColId = .str ext) :
    matchingItems ⟨n, B.items ++ [⟨i, "active", nm, cv⟩]⟩ lookupColId ext
      = matchingItems B lookupColId ext ++ [⟨i, "active", nm, cv⟩] := by
  unfold matchingItems
  simp [List.filter_append, List.filter_cons, colText, hcv]

/-- Creation preserves board well-formedness. -/
theorem boardWF_create (B : Board) (nm : String) (cv : List (String × Json))
    (h : boardWF B) :
    boardWF ⟨B.nextId + 1, B.items ++ [⟨B.nextId, "active", nm, cv⟩]⟩ := by
  obtain ⟨hnd, hlt⟩ := h
  constructor
  · simp only [List.map_append, List.map_cons, List.map_nil]
    rw [List.nodup_append]
    refine ⟨hnd, List.nodup_singleton _, ?_⟩
    intro a ha hb
    simp only [List.mem_singleton] at hb
    rcases List.mem_map.mp ha with ⟨x, hx, hxa⟩
    have := hlt x hx
    omega
  · intro it hit
    rcases List.mem_append.mp hit with h1 | h1
    · exact Nat.lt_succ_of_lt (hlt it h1)
    · simp only [List.mem_singleton] at h1
      rw [h1]
      exact Nat.lt_succ_self _

/-- An in-place update preserves board well-formedness. -/
theorem boardWF_update (B : Board) (i : Nat) (cv : List (String × Json))
    (h : boardWF B) : boardWF (update_item B i cv) := by
  obtain ⟨hnd, hlt⟩ := h
  have hids : (B.items.map (fun it => if it.id == i
      then (⟨it.id, it.state, it.name, cvMerge it.cols cv⟩ : MItem)
      else it)).map (fun it => it.id) = B.items.map (fun it => it.id) := by
    rw [List.map_map]
    apply List.map_congr_left
    intro x hx
    by_cases hid : (x.id == i) = true <;> simp [Function.comp, hid]
  constructor
  · simp only [update_item]
    rw [hids]
    exact hnd
  · intro it hit
    simp only [update_item] at hit
    rcases List.mem_map.mp hit with ⟨x, hx, heq⟩
    by_cases hid : (x.id == i) = true
    · rw [if_pos hid] at heq
      rw [← heq]
      exact hlt x hx
    · rw [if_neg hid] at heq
      rw [← heq]
      exact hlt x hx

/-- Updating the unique matching item of a duplicate-free list leaves exactly its updated version matching. -/
theorem filter_update_of_unique (c e : String) (cv : List (String × Json)) :
    ∀ (items : List MItem) (it : MItem),
    (items.map (fun x => x.id)).Nodup →
    items.filter (fun x => colText x.cols c == e) = [it] →
    colText (cvMerge it.cols cv) c = e →
    (items.map (fun x => if x.id == it.id
        then (⟨x.id, x.state, x.name, cvMerge x.cols cv⟩ : MItem) else x)).filter
      (fun x => colText x.cols c == e)
      = [⟨it.id, it.state, it.name, cvMerge it.cols cv⟩] := by
  intro items
  induction items with
  | nil => intro it hnd hf hmerge; simp at hf
  | cons x xs ih =>
      intro it hnd hf hmerge
      simp only [List.map_cons, List.nodup_cons] at hnd
      obtain ⟨hx_notin, hnd_xs⟩ := hnd
      simp only [List.filter_cons] at hf
      simp only [List.map_cons]
      by_cases hx : (colText x.cols c == e) = true
      · rw [if_pos hx] at hf
        injection hf with h1 h2
        subst h1
        rw [if_pos (by simp), List.filter_cons, if_pos (by simp [hmerge])]
        have hmapeq : xs.map (fun y => if y.id == x.id
            then (⟨y.id, y.state, y.name, cvMerge y.cols cv⟩ : MItem) else y)
            = xs := by
          have hcongr : ∀ y ∈ xs, (if y.id == x.id
              then (⟨y.id, y.state, y.name, cvMerge y.cols cv⟩ : MItem) else y)
              = id y := by
            intro y hy
            rw [if_neg, id]
            intro hb
            have hyx : y.id = x.id := by simpa using hb
            exact hx_notin (hyx ▸ List.mem_map_of_mem _ hy)
          rw [List.map_congr_left hcongr, List.map_id]
        rw [hmapeq, h2]
      · rw [if_neg hx] at hf
        have hit : it ∈ xs := by
          have hmem : it ∈ xs.filter (fun y => colText y.cols c == e) := by
            rw [hf]; simp
          exact List.mem_of_mem_filter hmem
        have hxid : ¬(x.id == it.id) = true := by
          intro hb
          have hxeq : x.id = it.id := by simpa using hb
          exact hx_notin (hxeq ▸ List.mem_map_of_mem _ hit)
        rw [if_neg hxid, List.filter_cons, if_neg (by simpa using hx)]
        exact ih it hnd_xs hf hmerge

/-- After updating the unique matching record with a key-preserving payload, it is still the unique match. -/
theorem matchingItems_update (B : Board) (ext : String) (it : MItem)
    (cv : List (String × Json))
    (hnd : (B.items.map (fun x => x.id)).Nodup)
    (hm : matchingItems B lookupColId ext = [it])
    (hmerge : colText (cvMerge it.cols cv) lookupColId = ext) :
    matchingItems (update_item B it.id cv) lookupColId ext
      = [⟨it.id, it.state, it.name, cvMerge it.cols cv⟩] := by
  unfold matchingItems at hm ⊢
  simp only [update_item]
  exact filter_update_of_unique lookupColId ext cv B.items it hnd hm hmerge

/-- `_safe_upsert` on a board whose unique matching record is active: updates it in place and reports updated with its id. -/
theorem safe_upsert_update (B : Board) (name ext : String)
    (cv : List (String × Json)) (it : MItem)
    (hm : matchingItems B lookupColId ext = [it])
    (hact : it.state = "active") :
    safe_upsert B ⟨name, ext, cv⟩
      = (⟨true, some it.id, false, true, none⟩, update_item B it.id cv) := by
  have hfind : find_item_by_external_id B lookupColId ext
      = some (it.id, "active") := by
    unfold find_item_by_external_id
    rw [hm]
    simp [List.take, List.filter_cons, hact,
      show (pyLower "active" == "active") = true from rfl]
  simp only [safe_upsert, hfind]
  rfl

/-- With one active matching record, every further upsert of the sequence updates that record in place and the board keeps exactly one active match with the same id. -/
theorem upsert_seq_updates (name ext : String) :
    ∀ (cvs : List (List (String × Json))) (B : Board) (it : MItem),
    boardWF B →
    matchingItems B lookupColId ext = [it] →
    it.state = "active" →
    (∀ cv ∈ cvs, Json.objGet cv lookupColId = .str ext ∧
        cvLast cv lookupColId = some (.str ext)) →
    ∃ rs Bf, upsert_seq B name ext cvs = (rs, Bf) ∧
      (∀ r ∈ rs, r = ⟨true, some it.id, false, true, none⟩) ∧
      ∃ itf, matchingItems Bf lookupColId ext = [itf] ∧ itf.id = it.id ∧
        itf.state = "active" ∧ boardWF Bf := by
  intro cvs
  induction cvs with
  | nil =>
      intro B it hWF hm hact hcv
      exact ⟨[], B, rfl, by simp, it, hm, rfl, hact, hWF⟩
  | cons cv rest ih =>
      intro B it hWF hm hact hcv
      obtain ⟨hcv1, hcv2⟩ := hcv cv (List.mem_cons_self _ _)
      have hup := safe_upsert_update B name ext cv it hm hact
      have hmerge := colText_merge it.cols cv lookupColId ext hcv2
      have hm2 := matchingItems_update B ext it cv hWF.1 hm hmerge
      have hWF2 := boardWF_update B it.id cv hWF
      obtain ⟨rs, Bf, hseq, hall, itf, hmf, hidf, hactf, hWFf⟩ :=
        ih (update_item B it.id cv)
          ⟨it.id, it.state, it.name, cvMerge it.cols cv⟩ hWF2 hm2 hact
          (fun c hc => hcv c (List.mem_cons_of_mem _ hc))
      refine ⟨⟨true, some it.id, false, true, none⟩ :: rs, Bf, ?_, ?_,
        itf, hmf, hidf, hactf, hWFf⟩
      · simp only [upsert_seq, hup, hseq]
      · intro r hr
        rcases List.mem_cons.mp hr with h | h
        · exact h
        · exact hall r h

/-- C1: idempotent upsert.  Starting from a well-formed board with no
record for the external id, a non-empty sequence of upserts whose payloads
all carry the external id in the lookup column returns created on the first
call, updated with the same item id on every later call, and converges to a
single active matching record — duplicates never accumulate. -/
theorem upsert_idempotent_convergence (B : Board) (name ext : String)
    (cvs : List (List (String × Json)))
    (hWF : boardWF B)
    (hnone : matchingItems B lookupColId ext = [])
    (hcv : ∀ cv ∈ cvs, Json.objGet cv lookupColId = .str ext ∧
        cvLast cv lookupColId = some (.str ext))
    (hne : cvs ≠ []) :
    ∃ rs Bf, upsert_seq B name ext cvs = (rs, Bf) ∧
      rs.head? = some ⟨true, some B.nextId, true, false, none⟩ ∧
      (∀ r ∈ rs.tail, r = ⟨true, some B.nextId, false, true, none⟩) ∧
      convergedTo Bf ext B.nextId := by
  cases cvs with
  | nil => exact absurd rfl hne
  | cons cv rest =>
      obtain ⟨hcv1, hcv2⟩ := hcv cv (List.mem_cons_self _ _)
      have hup := safe_upsert_create B name ext cv hnone
      have hB1 : matchingItems
          ⟨B.nextId + 1,
           B.items ++ [⟨B.nextId, "active", name ++ " • #" ++ ext, cv⟩]⟩
          lookupColId ext
          = [⟨B.nextId, "active", name ++ " • #" ++ ext, cv⟩] := by
        rw [matchingItems_create B ext _ cv _ _ hcv1, hnone, List.nil_append]
      have hWF1 := boardWF_create B (name ++ " • #" ++ ext) cv hWF
      obtain ⟨rs, Bf, hseq, hall, itf, hmf, hidf, hactf, hWFf⟩ :=
        upsert_seq_updates name ext rest _
          ⟨B.nextId, "active", name ++ " • #" ++ ext, cv⟩ hWF1 hB1 rfl
          (fun c hc => hcv c (List.mem_cons_of_mem _ hc))
      refine ⟨⟨true, some B.nextId, true, false, none⟩ :: rs, Bf, ?_, rfl, ?_, ?_⟩
      · simp only [upsert_seq, hup, hseq]
      · intro r hr
        exact hall r hr
      · exact ⟨itf, hmf, hidf, hactf⟩

/-- C1 witness: two successive upserts of one booking against an empty
board — first created, then updated, one active record. -/
theorem upsert_idempotent_convergence_witness :
    boardWF ⟨1, []⟩ ∧
    matchingItems ⟨1, []⟩ lookupColId "77" = [] ∧
    ∃ rs Bf,
      upsert_seq ⟨1, []⟩ "G" "77"
          [[(lookupColId, Json.str "77")],
           [(lookupColId, Json.str "77"), ("text_mkv49eqm", Json.str "U")]]
        = (rs, Bf) ∧
      rs.head? = some ⟨true, some 1, true, false, none⟩ ∧
      (∀ r ∈ rs.tail, r = ⟨true, some 1, false, true, none⟩) ∧
      convergedTo Bf "77" 1 :=
  ⟨⟨by simp, by simp⟩, rfl,
   upsert_idempotent_convergence ⟨1, []⟩ "G" "77" _
     ⟨by simp, by simp⟩ rfl
     (by intro cv h
         simp only [List.mem_cons, List.mem_singleton, List.not_mem_nil,
           or_false] at h
         rcases h with rfl | rfl
         · exact ⟨rfl, rfl⟩
         · exact ⟨rfl, rfl⟩)
     (by simp)⟩
